import Mathlib

deriving instance DecidableEq for Except

/-!
Verification of the `Tree` adapter of the qcfg-js-vscode library
(`src/tree.ts`, together with `src/uri.ts` and the error-handling helpers).

The TypeScript code is shallowly embedded:
* nodes are identified by natural numbers; each node's optional callbacks
  (`getTreeItem`, `getChecked`, `getChildren`, `getUriPathSegments`,
  `getDecorations`, `onDrop`) are given by an environment `Env`;
* the per-node metadata records (`__tree` property installed by
  `objectGetOrSetProperty`) become a partial map `Nat → Option NodeMeta`;
* JS exceptions become `Except String`; the `reportErrorsAndRethrow` /
  `reportErrorsNoRethrow` wrappers from `error-handling.ts` are modelled by
  catching the error, appending the formatted message to a log of reported
  (user-facing) errors, and rethrowing or swallowing respectively;
* the recursive procedures that walk the cached-children graph
  (`clearMetadata`, `iterateNodes`/`findFirstNode`, `updateDecorations` with
  parent propagation) take explicit fuel, since the cached graph is not
  guaranteed acyclic (in JS a cycle would make them diverge).
-/

/-! ## Resource locators (vscode `Uri` and `src/uri.ts`)

`vscode.Uri` is modelled by its components.  Only the operations used by the
tree adapter are embedded: `with` (path replacement) and `joinPath`.
-/

/-- Component model of a `vscode.Uri` (fragment omitted, unused by the code
under verification).  For example the string `scheme://base` parses to
`⟨"scheme", "base", "", ""⟩` (authority `base`, empty path) and
`scheme://base/x/y` to `⟨"scheme", "base", "/x/y", ""⟩`. -/
structure Uri where
  scheme : String := ""
  authority : String := ""
  path : String := ""
  query : String := ""
deriving Repr, DecidableEq

/-- `node:path`'s `join` restricted to plain segments (no `..`, `.`, empty or
slash-containing segments appear in the verified claims, so no normalization
is modelled): segments joined with `/`. -/
def pathJoin (segments : List String) : String :=
  String.intercalate "/" segments

/-- `uri.with({ path })`.  NOTE: the real host implementation additionally
validates the result and throws when an authority is present and the new path
does not start with `/`; the model is permissive and keeps the raw
components, which is enough to compare the produced components against a
claimed locator. -/
def Uri.withPath (u : Uri) (p : String) : Uri :=
  { u with path := p }

/-- `vscode.Uri.joinPath` for plain segments: posix-join of the existing
(non-empty) path with the segments. -/
def Uri.joinPath (u : Uri) (segments : List String) : Uri :=
  { u with
    path :=
      (if u.path.endsWith "/" then u.path.dropRight 1 else u.path) ++ "/" ++
        pathJoin segments }

/-- `uri.toString(true /- skipEncoding -/)`, following the host's formatting:
`scheme:` then `//authority` (when an authority is present or the scheme is
`file`) then path then `?query`.  Percent-encoding is skipped, as in the
`skipEncoding` calls the adapter makes. -/
def Uri.toStr (u : Uri) : String :=
  (if u.scheme = "" then "" else u.scheme ++ ":") ++
    (if u.authority = "" ∧ u.scheme ≠ "file" then "" else "//" ++ u.authority) ++
    u.path ++
    (if u.query = "" then "" else "?" ++ u.query)

namespace URI

/-- `URI.appendPath` from `src/uri.ts`:
`joinPath` can only be called on a Uri with non-empty path, so an empty path
is replaced wholesale by `join(...pathSegments)`. -/
def appendPath (uri : Uri) (pathSegments : List String) : Uri :=
  if uri.path = "" then uri.withPath (pathJoin pathSegments)
  else uri.joinPath pathSegments

end URI

/-! ## The root-population machine (`Tree.setData` / pending promise)

`setData` with a promise argument stores the promise in `this.promise`,
awaits it, assigns `this.data` from the awaited result and finally resets
`this.promise = undefined` — with no check that `this.promise` still refers
to the same promise.  The interleaving of several in-flight `setData` calls
is modelled by an event machine: promises are identified by numbers, a
`setDataPromise p` event runs the synchronous prefix of a `setData(P_p)`
invocation (clear metadata of old roots, fire the change event, store the
promise pointer, suspend at `await`), and a `settle p r` event resolves
promise `p` with value `r`, resuming every `setData` invocation currently
suspended on `p` (each resumed body runs `this.data = r` and then the
`finally` block `this.promise = undefined`).  Metadata clearing and change
events are irrelevant to the root set and the promise pointer and are not
tracked here (they are covered by the `Sys` model below). -/

/-- Root-population state: `data` is the visible root set (`Tree.getData`),
`promise` the stored pending-promise pointer, `waiters` the promise ids that
still-running `setData` invocations are suspended on. -/
structure RootState where
  data : List Nat := []
  promise : Option Nat := none
  waiters : List Nat := []
deriving Repr, DecidableEq

/-- Events driving the root-population machine. -/
inductive RootEvent where
  | setDataArray : List Nat → RootEvent
  | setDataPromise : Nat → RootEvent
  | settle : Nat → List Nat → RootEvent
deriving Repr, DecidableEq

/-- One step of the root-population machine (see the section comment). -/
def rootStep (s : RootState) : RootEvent → RootState
  | .setDataArray d => { s with data := d }
  | .setDataPromise p => { s with promise := some p, waiters := s.waiters ++ [p] }
  | .settle p r =>
      if p ∈ s.waiters then
        { data := r, promise := none, waiters := s.waiters.filter (fun q => q ≠ p) }
      else s

/-- Run a sequence of root-population events. -/
def rootRun (s : RootState) (evs : List RootEvent) : RootState :=
  evs.foldl rootStep s

/-! ### Claim C1 -/

/-- Claim C1, counterexample.  The claim states that after
`setData(P1); setData(P2)` (both pending), P1 settling has *no observable
effect* on the root set or on the stored pending-promise pointer, and that
only P2's result ever becomes the root set.  In the code, the first `setData`
invocation is still suspended on `await data` with `data = P1`; when P1
settles it runs `this.data = r1` and `finally { this.promise = undefined }`.
Concretely: before `settle 1 [7]` the state has root set `[]` and promise
pointer `some 2`; afterwards the root set is `[7]` (P1's result became
visible) and the promise pointer has been cleared — both observably changed,
refuting the claim. -/
theorem setData_stale_promise_counterexample :
    (rootRun {} [.setDataPromise 1, .setDataPromise 2]).data = [] ∧
    (rootRun {} [.setDataPromise 1, .setDataPromise 2]).promise = some 2 ∧
    (rootRun {} [.setDataPromise 1, .setDataPromise 2, .settle 1 [7]]).data = [7] ∧
    (rootRun {} [.setDataPromise 1, .setDataPromise 2, .settle 1 [7]]).promise = none := by
  decide

/-- Claim C1, amended.  When `setData(P2)` supersedes a still-pending
`setData(P1)`, the later settlement of P1 *does* overwrite the visible root
set with P1's result and clears the stored promise pointer; P2's result
becomes the root set only when P2 itself settles, and with the opposite
settlement order the final root set is P1's result — i.e. the root set ends
at the result of whichever promise settles last. -/
theorem setData_race_amended (s : RootState) (p1 p2 : Nat) (r1 r2 : List Nat)
    (h : p1 ≠ p2) :
    (rootRun s [.setDataPromise p1, .setDataPromise p2, .settle p1 r1]).data = r1 ∧
    (rootRun s [.setDataPromise p1, .setDataPromise p2, .settle p1 r1]).promise = none ∧
    (rootRun s [.setDataPromise p1, .setDataPromise p2, .settle p1 r1, .settle p2 r2]).data
      = r2 ∧
    (rootRun s [.setDataPromise p1, .setDataPromise p2, .settle p2 r2, .settle p1 r1]).data
      = r1 := by
  have h2 : p2 ≠ p1 := Ne.symm h
  refine ⟨?_, ?_, ?_, ?_⟩ <;>
    simp [rootRun, rootStep, h, h2]

/-- Witness for `setData_race_amended` at `p1 = 1`, `p2 = 2`, `r1 = [5]`,
`r2 = [6]`, starting from the empty state. -/
theorem setData_race_amended_witness :
    (1 : Nat) ≠ 2 ∧
    ((rootRun {} [.setDataPromise 1, .setDataPromise 2, .settle 1 [5]]).data = [5] ∧
      (rootRun {} [.setDataPromise 1, .setDataPromise 2, .settle 1 [5]]).promise = none ∧
      (rootRun {} [.setDataPromise 1, .setDataPromise 2, .settle 1 [5], .settle 2 [6]]).data
        = [6] ∧
      (rootRun {} [.setDataPromise 1, .setDataPromise 2, .settle 2 [6], .settle 1 [5]]).data
        = [5]) :=
  ⟨by decide, setData_race_amended {} 1 2 [5] [6] (by decide)⟩

/-! ## The tree adapter state (`Tree` and `TreeNodeMetadata`)

Nodes are identified by natural numbers.  The caller-defined callbacks of a
node (`TreeNode` interface) are supplied by an `Env`. -/

/-- A rendered `vscode.TreeItem`, restricted to the fields the adapter reads
or writes (`resourceUri`, `checkboxState`, `contextValue`; `label` stands for
the rest of the host-rendered payload). -/
structure TreeItm where
  label : String := ""
  resourceUri : Option Uri := none
  checkboxState : Option Bool := none
  contextValue : Option String := none
deriving Repr, DecidableEq

/-- `TreeNodeMetadata` from `tree.ts`: cached rendered item, cached resolved
children, parent back-reference, cached decoration map (the decoration map
itself is opaque here — only its presence matters to the verified claims). -/
structure NodeMeta where
  treeItem : Option TreeItm := none
  children : Option (List Nat) := none
  parent : Option Nat := none
  decorations : Option (List (String × String)) := none
deriving Repr, DecidableEq

/-- The caller-supplied capabilities of one node (the `TreeNode` interface),
as results rather than functions: `Except.error` models a callback that
throws.  `getChildrenCb = some (.ok none)` is a producer returning
`undefined`; `none` means the optional callback is absent.  `pathSegments`
is `normalizeArray(getUriPathSegments?.())` (empty when the callback is
absent — behaviourally identical in the code, which only checks
`length > 0`).  `viewItemId` is the static command-routing metadata read via
`Commands.getMetadata(node.constructor)`. -/
structure NodeDef where
  getTreeItemCb : Except String TreeItm := .ok {}
  getCheckedCb : Option (Except String Bool) := none
  getChildrenCb : Option (Except String (Option (List Nat))) := none
  pathSegments : List String := []
  hasGetDecorations : Bool := false
  hasOnDrop : Bool := false
  viewItemId : Option String := none

/-- Environment: callbacks for every node id. -/
def Env := Nat → NodeDef

/-- The adapter state plus an observation log.  `meta` is the per-node
`__tree` record (`none` = the property was never installed on that node);
`data` is the root collection.  The remaining fields record the observable
effects the claims talk about: callback invocation counts, errors reported
through `handleError` (logged *and* shown to the user via `Message.show`),
`logger.debug` lines, `decorationChangeEmitter.fire` payloads,
`onChangeEmitter.fire` count and invoked drop handlers. -/
structure Sys where
  meta : Nat → Option NodeMeta := fun _ => none
  data : List Nat := []
  treeItemCalls : Nat → Nat := fun _ => 0
  checkedCalls : Nat → Nat := fun _ => 0
  childrenCalls : Nat → Nat := fun _ => 0
  reportedErrors : List String := []
  debugLogs : List String := []
  decorationFires : List (Option Uri) := []
  changeFires : Nat := 0
  dropCalls : List (Nat × Nat) := []

/-- `objectGetOrSetProperty(node, "__tree", () => new TreeNodeMetadata(this))`:
return the node's metadata record, installing a fresh empty one first when
the node does not carry one yet. -/
def getMeta (s : Sys) (n : Nat) : NodeMeta × Sys :=
  match s.meta n with
  | some m => (m, s)
  | none => ({}, { s with meta := fun i => if i = n then some {} else s.meta i })

/-- Mutate the node's metadata record (installing it first if absent), as the
JS code does through the shared object reference. -/
def setMeta (s : Sys) (n : Nat) (f : NodeMeta → NodeMeta) : Sys :=
  let p := getMeta s n
  { p.2 with meta := fun i => if i = n then some (f p.1) else p.2.meta i }

/-- Cached rendered item of a node (`none` when the record is absent or the
field unset). -/
def treeItemOf (s : Sys) (n : Nat) : Option TreeItm :=
  (s.meta n).bind (·.treeItem)

/-- Cached children list of a node. -/
def childrenOf (s : Sys) (n : Nat) : Option (List Nat) :=
  (s.meta n).bind (·.children)

/-- Parent back-reference of a node. -/
def parentOf (s : Sys) (n : Nat) : Option Nat :=
  (s.meta n).bind (·.parent)

/-- Cached decoration map of a node. -/
def decorationsOf (s : Sys) (n : Nat) : Option (List (String × String)) :=
  (s.meta n).bind (·.decorations)

/-- Whether the node carries a `__tree` metadata record at all. -/
def metadataExists (s : Sys) (n : Nat) : Bool :=
  (s.meta n).isSome

/-- `handleError` (error-handling module): log the error and show it to the
user as an error message.  Both observable effects are recorded as one entry. -/
def reportError (msg : String) (s : Sys) : Sys :=
  { s with reportedErrors := s.reportedErrors ++ [msg] }

/-- `logger.debug`. -/
def logDebug (msg : String) (s : Sys) : Sys :=
  { s with debugLogs := s.debugLogs ++ [msg] }

/-- `decorationChangeEmitter.fire` (payload may be `undefined`). -/
def fireDecoration (u : Option Uri) (s : Sys) : Sys :=
  { s with decorationFires := s.decorationFires ++ [u] }

/-- `onChangeEmitter.fire` (the payload is not tracked). -/
def fireChange (s : Sys) : Sys :=
  { s with changeFires := s.changeFires + 1 }

/-- Count one invocation of a node's `getTreeItem` callback. -/
def bumpTreeItemCalls (n : Nat) (s : Sys) : Sys :=
  { s with treeItemCalls := fun i => if i = n then s.treeItemCalls i + 1 else s.treeItemCalls i }

/-- Count one invocation of a node's `getChecked` callback. -/
def bumpCheckedCalls (n : Nat) (s : Sys) : Sys :=
  { s with checkedCalls := fun i => if i = n then s.checkedCalls i + 1 else s.checkedCalls i }

/-- Count one invocation of a node's `getChildren` callback. -/
def bumpChildrenCalls (n : Nat) (s : Sys) : Sys :=
  { s with childrenCalls := fun i => if i = n then s.childrenCalls i + 1 else s.childrenCalls i }

/-- JS truthiness of an optional string (`undefined` and `""` are falsy). -/
def truthyStr : Option String → Bool
  | none => false
  | some v => v ≠ ""

/-! ## `Tree.getTreeItem`

The body is split into the successive augmentation stages of the source,
wrapped at the end by `reportErrorsAndRethrow` (report, then rethrow). -/

/-- Checkbox augmentation: when the node defines `getChecked`, invoke it and
overwrite `treeItem.checkboxState` with the result (overwriting anything the
renderer set). -/
def applyChecked (env : Env) (n : Nat) (it : TreeItm) (s : Sys) :
    Except String TreeItm × Sys :=
  match (env n).getCheckedCb with
  | none => (.ok it, s)
  | some cb =>
    let s1 := bumpCheckedCalls n s
    match cb with
    | .error e => (.error e, s1)
    | .ok b => (.ok { it with checkboxState := some b }, s1)

/-- Context-value augmentation: when the rendered item's `contextValue` is
falsy and the node class declares a (truthy) `viewItemId`, assert that
`contextValue` is `undefined` (a defined-but-falsy `""` fails the assertion)
and copy the `viewItemId` into it. -/
def applyContextValue (env : Env) (n : Nat) (it : TreeItm) : Except String TreeItm :=
  if truthyStr it.contextValue then .ok it
  else
    match (env n).viewItemId with
    | none => .ok it
    | some vid =>
      if vid = "" then .ok it
      else if it.contextValue ≠ none then
        .error "Can not override contextValue when viewItemId is defined by tree view item class"
      else .ok { it with contextValue := some vid }

/-- `const parent = metadata.parent ? this.getMetadata(metadata.parent).treeItem : undefined`
— note this installs a metadata record on the parent when it lacks one. -/
def lookupParentItem (parentRef : Option Nat) (s : Sys) : Option TreeItm × Sys :=
  match parentRef with
  | none => (none, s)
  | some p =>
    let q := getMeta s p
    (q.1.treeItem, q.2)

/-- Path-segment augmentation: when the node declares path segments, assert
that the renderer set no `resourceUri`, that the node has a recorded parent,
and that the parent's cached item provides a `resourceUri`; then derive this
node's locator with `URI.appendPath`. -/
def applySegments (env : Env) (n : Nat) (parentRef : Option Nat)
    (parentItem : Option TreeItm) (it : TreeItm) : Except String TreeItm :=
  let segments := (env n).pathSegments
  if 0 < segments.length then
    if it.resourceUri ≠ none then
      .error "Node defines both TreeItem.resourceUri and path segments"
    else
      match parentRef with
      | none => .error "Node only defines path segments but has no parent"
      | some _ =>
        match parentItem.bind (·.resourceUri) with
        | none =>
          .error "Node only defines path segments but parent node does not provide resourceUri"
        | some parentUri =>
          .ok { it with resourceUri := some (URI.appendPath parentUri segments) }
  else .ok it

/-- Decoration notification: when the node defines `getDecorations`, assert
the final item has a `resourceUri` and fire the decoration channel with it.
(In the source this runs *after* the cache write.) -/
def fireDecorationsIfAny (env : Env) (n : Nat) (it : TreeItm) (s : Sys) :
    Except String TreeItm × Sys :=
  if (env n).hasGetDecorations then
    match it.resourceUri with
    | none =>
      (.error "Can not have getDecorations defined on node which doesn't provide resourceUri", s)
    | some u => (.ok it, fireDecoration (some u) s)
  else (.ok it, s)

/-- The cache-miss path of `Tree.getTreeItem` after the callback counter was
bumped: invoke the node's renderer and apply the augmentations in the
source's order (checkbox, context value, parent lookup + path segments),
cache the final item, then run the decoration notification.  `parentRef` is
`metadata.parent` as read at entry. -/
def getTreeItemRender (env : Env) (n : Nat) (parentRef : Option Nat) (s : Sys) :
    Except String TreeItm × Sys :=
  match (env n).getTreeItemCb with
  | .error e => (.error e, s)
  | .ok it0 =>
    match applyChecked env n it0 s with
    | (.error e, s2) => (.error e, s2)
    | (.ok it1, s2) =>
      match applyContextValue env n it1 with
      | .error e => (.error e, s2)
      | .ok it2 =>
        let pp := lookupParentItem parentRef s2
        match applySegments env n parentRef pp.1 it2 with
        | .error e => (.error e, pp.2)
        | .ok it3 =>
          let s3 := setMeta pp.2 n (fun mm => { mm with treeItem := some it3 })
          fireDecorationsIfAny env n it3 s3

/-- The un-wrapped body of `Tree.getTreeItem`: cached item if present,
otherwise render (counting the invocation of the node's callback). -/
def getTreeItemInner (env : Env) (n : Nat) (s : Sys) : Except String TreeItm × Sys :=
  let p0 := getMeta s n
  match p0.1.treeItem with
  | some it => (.ok it, p0.2)
  | none => getTreeItemRender env n p0.1.parent (bumpTreeItemCalls n p0.2)

/-- `Tree.getTreeItem`: the body above wrapped in `reportErrorsAndRethrow`
with prefix `"getTreeItem failed: "` — on error, report (log + user-facing
message) and rethrow to the host. -/
def getTreeItem (env : Env) (n : Nat) (s : Sys) : Except String TreeItm × Sys :=
  match getTreeItemInner env n s with
  | (.ok it, s1) => (.ok it, s1)
  | (.error e, s1) => (.error e, reportError ("getTreeItem failed: " ++ e) s1)

/-! ## `Tree.getChildren` -/

/-- `for (const child of metadata.children) this.getMetadata(child).parent = node`. -/
def setParents (n : Nat) (l : List Nat) (s : Sys) : Sys :=
  l.foldl (fun t c => setMeta t c (fun mm => { mm with parent := some n })) s

/-- The un-wrapped body of `Tree.getChildren` for a non-root node (the cache
was already checked by the caller): assign
`metadata.children = node.getChildren ? await node.getChildren() : undefined`
(no assignment when the producer throws), then record the parent
back-reference on each returned child. -/
def getChildrenInner (env : Env) (n : Nat) (s : Sys) :
    Except String (Option (List Nat)) × Sys :=
  let p0 := getMeta s n
  match (env n).getChildrenCb with
  | none => (.ok none, setMeta p0.2 n (fun mm => { mm with children := none }))
  | some cb =>
    let s1 := bumpChildrenCalls n p0.2
    match cb with
    | .error e => (.error e, s1)
    | .ok co =>
      let s2 := setMeta s1 n (fun mm => { mm with children := co })
      match co with
      | none => (.ok none, s2)
      | some l => (.ok (some l), setParents n l s2)

/-- `Tree.getChildren`: for a node, return the cached children when present
(a cached empty array is truthy in JS and is returned as-is); otherwise run
the body under `reportErrorsNoRethrow` with prefix `"getChildren failed: "`
(a thrown producer is reported and the call resolves with `undefined`).  For
the root (`node === undefined`) return the current root collection; the
pending-promise await of the root branch is covered by the `RootState`
machine, so this model takes the promise as already resolved. -/
def getChildren (env : Env) (node : Option Nat) (s : Sys) :
    Except String (Option (List Nat)) × Sys :=
  match node with
  | none => (.ok (some s.data), s)
  | some n =>
    let p0 := getMeta s n
    match p0.1.children with
    | some l => (.ok (some l), p0.2)
    | none =>
      match getChildrenInner env n p0.2 with
      | (.error e, s1) => (.ok none, reportError ("getChildren failed: " ++ e) s1)
      | (.ok r, s1) => (.ok r, s1)

/-! ## `Tree.getParent` and `Tree.getResourceUri` -/

/-- `Tree.getParent`: `this.getMetadata(node).parent` (installing a metadata
record when absent). -/
def getParent (s : Sys) (n : Nat) : Option Nat × Sys :=
  let p0 := getMeta s n
  (p0.1.parent, p0.2)

/-- `Tree.getResourceUri`: `this.getMetadata(node).treeItem?.resourceUri`. -/
def getResourceUri (s : Sys) (n : Nat) : Option Uri × Sys :=
  let p0 := getMeta s n
  (p0.1.treeItem.bind (·.resourceUri), p0.2)

/-! ## Invalidation (`Tree.clearMetadata` / `Tree.dataChanged`)

`clearMetadata` recurses through the *cached* children lists before clearing
the node's own cached fields; the parent back-reference is deliberately not
cleared.  The cached graph may in principle be cyclic, in which case the JS
recursion diverges — the model takes fuel and returns `none` on exhaustion. -/

/-- `fail.assertNotNull(value, msg)` from the typescript error helpers:
throws `msg` iff the value is `null`/`undefined`. -/
def assertNotNull {α : Type} (v : Option α) (msg : String) : Except String α :=
  match v with
  | none => .error msg
  | some a => .ok a

/-- `fail.assertNotNull` applied to a *boolean* argument, as
`updateDecorations` does with `!metadata.treeItem` and
`!metadata.treeItem?.resourceUri`: a boolean is never `null`/`undefined`, so
the check passes for either value. -/
def assertNotNullBool (b : Bool) (msg : String) : Except String Bool :=
  match (some b : Option Bool) with
  | none => .error msg
  | some v => .ok v

/-- Clear the node's cached fields (`treeItem`, `children`, `decorations`);
the `parent` back-reference is kept. -/
def clearFields (n : Nat) (s : Sys) : Sys :=
  setMeta s n (fun mm => { mm with treeItem := none, children := none, decorations := none })

/-- `Tree.clearMetadata(node, recursive)`: when `recursive` and the node has
cached children, first clear each cached child recursively (in list order,
aborting on fuel exhaustion), then clear the node's own cached fields.
`none` = fuel exhausted (the JS recursion would not terminate on such a
state).  The recursion over the cached child list is expressed as a fold so
that the definition is structural in the fuel. -/
def clearMetadataF : Nat → Nat → Bool → Sys → Option Sys
  | 0, _, _, _ => none
  | fuel + 1, n, rec, s =>
    let p0 := getMeta s n
    let rest : Option Sys :=
      if rec then
        match p0.1.children with
        | some l =>
          l.foldl (fun os c => os.bind (fun t => clearMetadataF fuel c rec t)) (some p0.2)
        | none => some p0.2
      else some p0.2
    rest.map (clearFields n)

/-- `children.forEach((child) => this.clearMetadata(child, recursive))`
(also used for the node list of `dataChanged`): sequential clearing,
propagating fuel exhaustion. -/
def clearSeqF (fuel : Nat) (rec : Bool) : List Nat → Sys → Option Sys
  | [], s => some s
  | c :: cs, s =>
    match clearMetadataF fuel c rec s with
    | none => none
    | some s1 => clearSeqF fuel rec cs s1

/-- `Tree.dataChanged(node, recursive)`: clear the metadata of the given
node(s) — of the whole root collection when `node` is `undefined` — and fire
the change event. -/
def dataChangedF (fuel : Nat) (nodes : Option (List Nat)) (rec : Bool) (s : Sys) :
    Option Sys :=
  (clearSeqF fuel rec (nodes.getD s.data) s).map fireChange

/-- `dataChangedF` with the un-invalidated state as the fuel-exhaustion
default, for stating theorems about the successful case. -/
def dataChangedRun (fuel : Nat) (nodes : Option (List Nat)) (rec : Bool) (s : Sys) : Sys :=
  (dataChangedF fuel nodes rec s).getD s

/-! ## `Tree.updateDecorations` -/

/-- `Tree.updateDecorations(node, propogateToParent)`: two `assertNotNull`
checks on *boolean* arguments (see `assertNotNullBool` — they can never
fail), then clear the cached decorations, fire the decoration channel with
`metadata.treeItem?.resourceUri` (possibly `undefined`), and optionally
recurse along the parent chain.  Fuel bounds the parent-chain recursion. -/
def updateDecorationsF : Nat → Nat → Bool → Sys → Option (Except String Unit × Sys)
  | 0, _, _, _ => none
  | fuel + 1, n, propagate, s =>
    let p0 := getMeta s n
    match assertNotNullBool (!p0.1.treeItem.isSome)
        "Can not update decorations on node which have not called getTreeItem yet" with
    | .error e => some (.error e, p0.2)
    | .ok _ =>
      match assertNotNullBool (!(p0.1.treeItem.bind (·.resourceUri)).isSome)
          "Can not update decorations on node that does not provide resourceUri" with
      | .error e => some (.error e, p0.2)
      | .ok _ =>
        let s1 := setMeta p0.2 n (fun mm => { mm with decorations := none })
        let s2 := fireDecoration (p0.1.treeItem.bind (·.resourceUri)) s1
        if propagate then
          match p0.1.parent with
          | some p => updateDecorationsF fuel p propagate s2
          | none => some (.ok (), s2)
        else some (.ok (), s2)

/-! ## Drag and drop (`Tree.handleDrop`)

`handleDrop` resolves the transfer payload (the dragged node's locator
serialized with `toString(true)`) back to a live node by a pre-order
`findFirstNode` scan over the cached tree, then delegates to the target's
drop handler.  The whole body runs under `reportErrorsNoRethrow` (no
options, hence no message prefix). -/

/-- The `findFirstNode` condition used by `handleDrop`:
`getMetadata(node).treeItem?.resourceUri?.toString(true) === sourceUri`. -/
def uriMatches (sourceUri : String) (s : Sys) (n : Nat) : Bool :=
  ((treeItemOf s n).bind (·.resourceUri)).map Uri.toStr == some sourceUri

/-- `Tree.findFirstNode(condition)` over the lazy pre-order enumeration
`iterateNodes` of the cached tree (the worklist starts at the root
collection; a node's cached children are prepended when the node does not
match).  Visiting a node installs its metadata record, as both the condition
and `iterateNodes` call `getMetadata`.  `none` = fuel exhausted. -/
def findFirstNodeF : Nat → (Sys → Nat → Bool) → List Nat → Sys →
    Option (Option Nat × Sys)
  | 0, _, _, _ => none
  | fuel + 1, cond, work, s =>
    match work with
    | [] => some (none, s)
    | n :: rest =>
      let p0 := getMeta s n
      if cond p0.2 n then some (some n, p0.2)
      else findFirstNodeF fuel cond (p0.1.children.getD [] ++ rest) p0.2

theorem findFirstNodeF_zero (cond : Sys → Nat → Bool) (work : List Nat) (s : Sys) :
    findFirstNodeF 0 cond work s = none := rfl

theorem findFirstNodeF_nil (fuel : Nat) (cond : Sys → Nat → Bool) (s : Sys) :
    findFirstNodeF (fuel + 1) cond [] s = some (none, s) := rfl

theorem findFirstNodeF_cons (fuel : Nat) (cond : Sys → Nat → Bool) (n : Nat)
    (rest : List Nat) (s : Sys) :
    findFirstNodeF (fuel + 1) cond (n :: rest) s
      = if cond (getMeta s n).2 n then some (some n, (getMeta s n).2)
        else findFirstNodeF fuel cond ((getMeta s n).1.children.getD [] ++ rest)
          (getMeta s n).2 := rfl

/-- The un-wrapped body of `Tree.handleDrop`: assert a transfer item exists
for the tree's MIME type, resolve the payload to a cached node, then drop
outside (debug log), invoke the target's `onDrop` with the resolved source,
or debug-log an unimplemented handler. -/
def handleDropBody (env : Env) (fuel : Nat) (target : Option Nat)
    (payload : Option String) (s : Sys) : Option (Except String Unit × Sys) :=
  match payload with
  | none => some (.error "No DataTransferItem for tree mime type", s)
  | some sourceUri =>
    match findFirstNodeF fuel (uriMatches sourceUri) s.data s with
    | none => none
    | some (none, s1) => some (.error "Can not find dragged node with uri", s1)
    | some (some src, s1) =>
      match target with
      | none => some (.ok (), logDebug "dropping outside" s1)
      | some tgt =>
        if (env tgt).hasOnDrop then
          some (.ok (), { s1 with dropCalls := s1.dropCalls ++ [(tgt, src)] })
        else some (.ok (), logDebug "onDrop not implemented" s1)

/-- `Tree.handleDrop`: the body wrapped in `reportErrorsNoRethrow` — a thrown
assertion is reported (logged + user-facing error message) and the call
resolves normally, so nothing propagates to the host. -/
def handleDropF (env : Env) (fuel : Nat) (target : Option Nat)
    (payload : Option String) (s : Sys) : Option (Except String Unit × Sys) :=
  (handleDropBody env fuel target payload s).map fun r =>
    match r with
    | (.error e, s1) => (.ok (), reportError e s1)
    | (.ok u, s1) => (.ok u, s1)

/-! ## Basic facts about the state primitives -/

@[simp] theorem getMeta_fst (s : Sys) (n : Nat) : (getMeta s n).1 = (s.meta n).getD {} := by
  unfold getMeta
  cases s.meta n <;> rfl

theorem getMeta_snd_meta (s : Sys) (n m : Nat) :
    (getMeta s n).2.meta m = if m = n then some ((s.meta n).getD {}) else s.meta m := by
  unfold getMeta
  cases h : s.meta n
  · simp [h]
  · simp [h]
    split
    · rename_i he
      subst he
      exact h
    · rfl

@[simp] theorem treeItemOf_getMeta (s : Sys) (n m : Nat) :
    treeItemOf (getMeta s n).2 m = treeItemOf s m := by
  unfold getMeta treeItemOf
  cases h : s.meta n
  · simp only
    split
    · rename_i he
      subst he
      simp [h]
    · rfl
  · rfl

@[simp] theorem childrenOf_getMeta (s : Sys) (n m : Nat) :
    childrenOf (getMeta s n).2 m = childrenOf s m := by
  unfold getMeta childrenOf
  cases h : s.meta n
  · simp only
    split
    · rename_i he
      subst he
      simp [h]
    · rfl
  · rfl

@[simp] theorem parentOf_getMeta (s : Sys) (n m : Nat) :
    parentOf (getMeta s n).2 m = parentOf s m := by
  unfold getMeta parentOf
  cases h : s.meta n
  · simp only
    split
    · rename_i he
      subst he
      simp [h]
    · rfl
  · rfl

@[simp] theorem decorationsOf_getMeta (s : Sys) (n m : Nat) :
    decorationsOf (getMeta s n).2 m = decorationsOf s m := by
  unfold getMeta decorationsOf
  cases h : s.meta n
  · simp only
    split
    · rename_i he
      subst he
      simp [h]
    · rfl
  · rfl

/-! The logging and counting transformers leave the metadata map unchanged,
and `getMeta`/`setMeta` leave the logs, counters and root collection
unchanged; the cache projections see through all of them. -/

@[simp] theorem treeItemOf_reportError (msg : String) (s : Sys) (m : Nat) :
    treeItemOf (reportError msg s) m = treeItemOf s m := rfl

@[simp] theorem childrenOf_reportError (msg : String) (s : Sys) (m : Nat) :
    childrenOf (reportError msg s) m = childrenOf s m := rfl

@[simp] theorem parentOf_reportError (msg : String) (s : Sys) (m : Nat) :
    parentOf (reportError msg s) m = parentOf s m := rfl

@[simp] theorem decorationsOf_reportError (msg : String) (s : Sys) (m : Nat) :
    decorationsOf (reportError msg s) m = decorationsOf s m := rfl

@[simp] theorem metadataExists_reportError (msg : String) (s : Sys) (m : Nat) :
    metadataExists (reportError msg s) m = metadataExists s m := rfl

@[simp] theorem treeItemOf_logDebug (msg : String) (s : Sys) (m : Nat) :
    treeItemOf (logDebug msg s) m = treeItemOf s m := rfl

@[simp] theorem childrenOf_logDebug (msg : String) (s : Sys) (m : Nat) :
    childrenOf (logDebug msg s) m = childrenOf s m := rfl

@[simp] theorem parentOf_logDebug (msg : String) (s : Sys) (m : Nat) :
    parentOf (logDebug msg s) m = parentOf s m := rfl

@[simp] theorem decorationsOf_logDebug (msg : String) (s : Sys) (m : Nat) :
    decorationsOf (logDebug msg s) m = decorationsOf s m := rfl

@[simp] theorem metadataExists_logDebug (msg : String) (s : Sys) (m : Nat) :
    metadataExists (logDebug msg s) m = metadataExists s m := rfl

@[simp] theorem treeItemOf_fireDecoration (u : Option Uri) (s : Sys) (m : Nat) :
    treeItemOf (fireDecoration u s) m = treeItemOf s m := rfl

@[simp] theorem childrenOf_fireDecoration (u : Option Uri) (s : Sys) (m : Nat) :
    childrenOf (fireDecoration u s) m = childrenOf s m := rfl

@[simp] theorem parentOf_fireDecoration (u : Option Uri) (s : Sys) (m : Nat) :
    parentOf (fireDecoration u s) m = parentOf s m := rfl

@[simp] theorem decorationsOf_fireDecoration (u : Option Uri) (s : Sys) (m : Nat) :
    decorationsOf (fireDecoration u s) m = decorationsOf s m := rfl

@[simp] theorem metadataExists_fireDecoration (u : Option Uri) (s : Sys) (m : Nat) :
    metadataExists (fireDecoration u s) m = metadataExists s m := rfl

@[simp] theorem treeItemOf_fireChange (s : Sys) (m : Nat) :
    treeItemOf (fireChange s) m = treeItemOf s m := rfl

@[simp] theorem childrenOf_fireChange (s : Sys) (m : Nat) :
    childrenOf (fireChange s) m = childrenOf s m := rfl

@[simp] theorem parentOf_fireChange (s : Sys) (m : Nat) :
    parentOf (fireChange s) m = parentOf s m := rfl

@[simp] theorem decorationsOf_fireChange (s : Sys) (m : Nat) :
    decorationsOf (fireChange s) m = decorationsOf s m := rfl

@[simp] theorem metadataExists_fireChange (s : Sys) (m : Nat) :
    metadataExists (fireChange s) m = metadataExists s m := rfl

@[simp] theorem treeItemOf_bumpTreeItemCalls (n : Nat) (s : Sys) (m : Nat) :
    treeItemOf (bumpTreeItemCalls n s) m = treeItemOf s m := rfl

@[simp] theorem childrenOf_bumpTreeItemCalls (n : Nat) (s : Sys) (m : Nat) :
    childrenOf (bumpTreeItemCalls n s) m = childrenOf s m := rfl

@[simp] theorem parentOf_bumpTreeItemCalls (n : Nat) (s : Sys) (m : Nat) :
    parentOf (bumpTreeItemCalls n s) m = parentOf s m := rfl

@[simp] theorem decorationsOf_bumpTreeItemCalls (n : Nat) (s : Sys) (m : Nat) :
    decorationsOf (bumpTreeItemCalls n s) m = decorationsOf s m := rfl

@[simp] theorem metadataExists_bumpTreeItemCalls (n : Nat) (s : Sys) (m : Nat) :
    metadataExists (bumpTreeItemCalls n s) m = metadataExists s m := rfl

@[simp] theorem treeItemOf_bumpCheckedCalls (n : Nat) (s : Sys) (m : Nat) :
    treeItemOf (bumpCheckedCalls n s) m = treeItemOf s m := rfl

@[simp] theorem childrenOf_bumpCheckedCalls (n : Nat) (s : Sys) (m : Nat) :
    childrenOf (bumpCheckedCalls n s) m = childrenOf s m := rfl

@[simp] theorem parentOf_bumpCheckedCalls (n : Nat) (s : Sys) (m : Nat) :
    parentOf (bumpCheckedCalls n s) m = parentOf s m := rfl

@[simp] theorem decorationsOf_bumpCheckedCalls (n : Nat) (s : Sys) (m : Nat) :
    decorationsOf (bumpCheckedCalls n s) m = decorationsOf s m := rfl

@[simp] theorem metadataExists_bumpCheckedCalls (n : Nat) (s : Sys) (m : Nat) :
    metadataExists (bumpCheckedCalls n s) m = metadataExists s m := rfl

@[simp] theorem treeItemOf_bumpChildrenCalls (n : Nat) (s : Sys) (m : Nat) :
    treeItemOf (bumpChildrenCalls n s) m = treeItemOf s m := rfl

@[simp] theorem childrenOf_bumpChildrenCalls (n : Nat) (s : Sys) (m : Nat) :
    childrenOf (bumpChildrenCalls n s) m = childrenOf s m := rfl

@[simp] theorem parentOf_bumpChildrenCalls (n : Nat) (s : Sys) (m : Nat) :
    parentOf (bumpChildrenCalls n s) m = parentOf s m := rfl

@[simp] theorem decorationsOf_bumpChildrenCalls (n : Nat) (s : Sys) (m : Nat) :
    decorationsOf (bumpChildrenCalls n s) m = decorationsOf s m := rfl

@[simp] theorem metadataExists_bumpChildrenCalls (n : Nat) (s : Sys) (m : Nat) :
    metadataExists (bumpChildrenCalls n s) m = metadataExists s m := rfl

@[simp] theorem getMeta_snd_data (s : Sys) (n : Nat) : (getMeta s n).2.data = s.data := by
  unfold getMeta
  cases s.meta n <;> rfl

@[simp] theorem getMeta_snd_treeItemCalls (s : Sys) (n : Nat) :
    (getMeta s n).2.treeItemCalls = s.treeItemCalls := by
  unfold getMeta
  cases s.meta n <;> rfl

@[simp] theorem getMeta_snd_checkedCalls (s : Sys) (n : Nat) :
    (getMeta s n).2.checkedCalls = s.checkedCalls := by
  unfold getMeta
  cases s.meta n <;> rfl

@[simp] theorem getMeta_snd_childrenCalls (s : Sys) (n : Nat) :
    (getMeta s n).2.childrenCalls = s.childrenCalls := by
  unfold getMeta
  cases s.meta n <;> rfl

@[simp] theorem getMeta_snd_reportedErrors (s : Sys) (n : Nat) :
    (getMeta s n).2.reportedErrors = s.reportedErrors := by
  unfold getMeta
  cases s.meta n <;> rfl

@[simp] theorem getMeta_snd_debugLogs (s : Sys) (n : Nat) :
    (getMeta s n).2.debugLogs = s.debugLogs := by
  unfold getMeta
  cases s.meta n <;> rfl

@[simp] theorem getMeta_snd_decorationFires (s : Sys) (n : Nat) :
    (getMeta s n).2.decorationFires = s.decorationFires := by
  unfold getMeta
  cases s.meta n <;> rfl

@[simp] theorem getMeta_snd_changeFires (s : Sys) (n : Nat) :
    (getMeta s n).2.changeFires = s.changeFires := by
  unfold getMeta
  cases s.meta n <;> rfl

@[simp] theorem getMeta_snd_dropCalls (s : Sys) (n : Nat) :
    (getMeta s n).2.dropCalls = s.dropCalls := by
  unfold getMeta
  cases s.meta n <;> rfl

@[simp] theorem metadataExists_getMeta (s : Sys) (n m : Nat) :
    metadataExists (getMeta s n).2 m = (metadataExists s m || decide (m = n)) := by
  unfold metadataExists
  rw [getMeta_snd_meta]
  split
  · rename_i he
    subst he
    simp
  · rename_i he
    simp [he]

theorem setMeta_meta (s : Sys) (n : Nat) (f : NodeMeta → NodeMeta) (m : Nat) :
    (setMeta s n f).meta m = if m = n then some (f ((s.meta n).getD {})) else s.meta m := by
  show (if m = n then some (f (getMeta s n).1) else (getMeta s n).2.meta m) = _
  rw [getMeta_fst, getMeta_snd_meta]
  split
  · rfl
  · rfl

@[simp] theorem setMeta_data (s : Sys) (n : Nat) (f : NodeMeta → NodeMeta) :
    (setMeta s n f).data = s.data := by
  unfold setMeta getMeta
  cases s.meta n <;> rfl

@[simp] theorem setMeta_treeItemCalls (s : Sys) (n : Nat) (f : NodeMeta → NodeMeta) :
    (setMeta s n f).treeItemCalls = s.treeItemCalls := by
  unfold setMeta getMeta
  cases s.meta n <;> rfl

@[simp] theorem setMeta_checkedCalls (s : Sys) (n : Nat) (f : NodeMeta → NodeMeta) :
    (setMeta s n f).checkedCalls = s.checkedCalls := by
  unfold setMeta getMeta
  cases s.meta n <;> rfl

@[simp] theorem setMeta_childrenCalls (s : Sys) (n : Nat) (f : NodeMeta → NodeMeta) :
    (setMeta s n f).childrenCalls = s.childrenCalls := by
  unfold setMeta getMeta
  cases s.meta n <;> rfl

@[simp] theorem setMeta_reportedErrors (s : Sys) (n : Nat) (f : NodeMeta → NodeMeta) :
    (setMeta s n f).reportedErrors = s.reportedErrors := by
  unfold setMeta getMeta
  cases s.meta n <;> rfl

@[simp] theorem setMeta_debugLogs (s : Sys) (n : Nat) (f : NodeMeta → NodeMeta) :
    (setMeta s n f).debugLogs = s.debugLogs := by
  unfold setMeta getMeta
  cases s.meta n <;> rfl

@[simp] theorem setMeta_decorationFires (s : Sys) (n : Nat) (f : NodeMeta → NodeMeta) :
    (setMeta s n f).decorationFires = s.decorationFires := by
  unfold setMeta getMeta
  cases s.meta n <;> rfl

@[simp] theorem setMeta_changeFires (s : Sys) (n : Nat) (f : NodeMeta → NodeMeta) :
    (setMeta s n f).changeFires = s.changeFires := by
  unfold setMeta getMeta
  cases s.meta n <;> rfl

@[simp] theorem setMeta_dropCalls (s : Sys) (n : Nat) (f : NodeMeta → NodeMeta) :
    (setMeta s n f).dropCalls = s.dropCalls := by
  unfold setMeta getMeta
  cases s.meta n <;> rfl

theorem treeItemOf_setMeta (s : Sys) (n : Nat) (f : NodeMeta → NodeMeta) (m : Nat) :
    treeItemOf (setMeta s n f) m
      = if m = n then (f ((s.meta n).getD {})).treeItem else treeItemOf s m := by
  unfold treeItemOf
  rw [setMeta_meta]
  split <;> rfl

theorem childrenOf_setMeta (s : Sys) (n : Nat) (f : NodeMeta → NodeMeta) (m : Nat) :
    childrenOf (setMeta s n f) m
      = if m = n then (f ((s.meta n).getD {})).children else childrenOf s m := by
  unfold childrenOf
  rw [setMeta_meta]
  split <;> rfl

theorem parentOf_setMeta (s : Sys) (n : Nat) (f : NodeMeta → NodeMeta) (m : Nat) :
    parentOf (setMeta s n f) m
      = if m = n then (f ((s.meta n).getD {})).parent else parentOf s m := by
  unfold parentOf
  rw [setMeta_meta]
  split <;> rfl

theorem decorationsOf_setMeta (s : Sys) (n : Nat) (f : NodeMeta → NodeMeta) (m : Nat) :
    decorationsOf (setMeta s n f) m
      = if m = n then (f ((s.meta n).getD {})).decorations else decorationsOf s m := by
  unfold decorationsOf
  rw [setMeta_meta]
  split <;> rfl

@[simp] theorem metadataExists_setMeta (s : Sys) (n : Nat) (f : NodeMeta → NodeMeta) (m : Nat) :
    metadataExists (setMeta s n f) m = (metadataExists s m || decide (m = n)) := by
  unfold metadataExists
  rw [setMeta_meta]
  split
  · rename_i he
    subst he
    simp
  · rename_i he
    simp [he]

@[simp] theorem treeItemOf_clearFields (n : Nat) (s : Sys) (m : Nat) :
    treeItemOf (clearFields n s) m = if m = n then none else treeItemOf s m := by
  unfold clearFields
  rw [treeItemOf_setMeta]

@[simp] theorem childrenOf_clearFields (n : Nat) (s : Sys) (m : Nat) :
    childrenOf (clearFields n s) m = if m = n then none else childrenOf s m := by
  unfold clearFields
  rw [childrenOf_setMeta]

@[simp] theorem decorationsOf_clearFields (n : Nat) (s : Sys) (m : Nat) :
    decorationsOf (clearFields n s) m = if m = n then none else decorationsOf s m := by
  unfold clearFields
  rw [decorationsOf_setMeta]

@[simp] theorem parentOf_clearFields (n : Nat) (s : Sys) (m : Nat) :
    parentOf (clearFields n s) m = parentOf s m := by
  unfold clearFields
  rw [parentOf_setMeta]
  split
  · rename_i he
    subst he
    unfold parentOf
    cases s.meta m <;> rfl
  · rfl

@[simp] theorem metadataExists_clearFields (n : Nat) (s : Sys) (m : Nat) :
    metadataExists (clearFields n s) m = (metadataExists s m || decide (m = n)) := by
  unfold clearFields
  rw [metadataExists_setMeta]

@[simp] theorem clearFields_data (n : Nat) (s : Sys) : (clearFields n s).data = s.data := by
  unfold clearFields
  rw [setMeta_data]

@[simp] theorem clearFields_treeItemCalls (n : Nat) (s : Sys) :
    (clearFields n s).treeItemCalls = s.treeItemCalls := by
  unfold clearFields
  rw [setMeta_treeItemCalls]

@[simp] theorem clearFields_childrenCalls (n : Nat) (s : Sys) :
    (clearFields n s).childrenCalls = s.childrenCalls := by
  unfold clearFields
  rw [setMeta_childrenCalls]

@[simp] theorem clearFields_checkedCalls (n : Nat) (s : Sys) :
    (clearFields n s).checkedCalls = s.checkedCalls := by
  unfold clearFields
  rw [setMeta_checkedCalls]

@[simp] theorem bumpTreeItemCalls_eval (n : Nat) (s : Sys) (m : Nat) :
    (bumpTreeItemCalls n s).treeItemCalls m
      = if m = n then s.treeItemCalls m + 1 else s.treeItemCalls m := rfl

@[simp] theorem bumpCheckedCalls_eval (n : Nat) (s : Sys) (m : Nat) :
    (bumpCheckedCalls n s).checkedCalls m
      = if m = n then s.checkedCalls m + 1 else s.checkedCalls m := rfl

@[simp] theorem bumpChildrenCalls_eval (n : Nat) (s : Sys) (m : Nat) :
    (bumpChildrenCalls n s).childrenCalls m
      = if m = n then s.childrenCalls m + 1 else s.childrenCalls m := rfl

@[simp] theorem reportError_reportedErrors (msg : String) (s : Sys) :
    (reportError msg s).reportedErrors = s.reportedErrors ++ [msg] := rfl

@[simp] theorem reportError_treeItemCalls (msg : String) (s : Sys) :
    (reportError msg s).treeItemCalls = s.treeItemCalls := rfl

@[simp] theorem reportError_checkedCalls (msg : String) (s : Sys) :
    (reportError msg s).checkedCalls = s.checkedCalls := rfl

@[simp] theorem reportError_childrenCalls (msg : String) (s : Sys) :
    (reportError msg s).childrenCalls = s.childrenCalls := rfl

@[simp] theorem reportError_debugLogs (msg : String) (s : Sys) :
    (reportError msg s).debugLogs = s.debugLogs := rfl

@[simp] theorem reportError_dropCalls (msg : String) (s : Sys) :
    (reportError msg s).dropCalls = s.dropCalls := rfl

@[simp] theorem bumpTreeItemCalls_treeItemOf_meta (n : Nat) (s : Sys) :
    (bumpTreeItemCalls n s).meta = s.meta := rfl

@[simp] theorem bumpCheckedCalls_meta (n : Nat) (s : Sys) :
    (bumpCheckedCalls n s).meta = s.meta := rfl

@[simp] theorem bumpChildrenCalls_meta (n : Nat) (s : Sys) :
    (bumpChildrenCalls n s).meta = s.meta := rfl

@[simp] theorem bumpTreeItemCalls_checkedCalls (n : Nat) (s : Sys) :
    (bumpTreeItemCalls n s).checkedCalls = s.checkedCalls := rfl

@[simp] theorem bumpTreeItemCalls_childrenCalls (n : Nat) (s : Sys) :
    (bumpTreeItemCalls n s).childrenCalls = s.childrenCalls := rfl

@[simp] theorem bumpTreeItemCalls_reportedErrors (n : Nat) (s : Sys) :
    (bumpTreeItemCalls n s).reportedErrors = s.reportedErrors := rfl

@[simp] theorem bumpCheckedCalls_treeItemCalls (n : Nat) (s : Sys) :
    (bumpCheckedCalls n s).treeItemCalls = s.treeItemCalls := rfl

@[simp] theorem bumpCheckedCalls_reportedErrors (n : Nat) (s : Sys) :
    (bumpCheckedCalls n s).reportedErrors = s.reportedErrors := rfl

@[simp] theorem bumpChildrenCalls_reportedErrors (n : Nat) (s : Sys) :
    (bumpChildrenCalls n s).reportedErrors = s.reportedErrors := rfl

@[simp] theorem bumpChildrenCalls_treeItemCalls (n : Nat) (s : Sys) :
    (bumpChildrenCalls n s).treeItemCalls = s.treeItemCalls := rfl

@[simp] theorem fireDecoration_meta (u : Option Uri) (s : Sys) :
    (fireDecoration u s).meta = s.meta := rfl

@[simp] theorem fireDecoration_treeItemCalls (u : Option Uri) (s : Sys) :
    (fireDecoration u s).treeItemCalls = s.treeItemCalls := rfl

@[simp] theorem fireDecoration_checkedCalls (u : Option Uri) (s : Sys) :
    (fireDecoration u s).checkedCalls = s.checkedCalls := rfl

@[simp] theorem fireDecoration_reportedErrors (u : Option Uri) (s : Sys) :
    (fireDecoration u s).reportedErrors = s.reportedErrors := rfl

@[simp] theorem fireDecoration_decorationFires (u : Option Uri) (s : Sys) :
    (fireDecoration u s).decorationFires = s.decorationFires ++ [u] := rfl

@[simp] theorem fireChange_meta (s : Sys) : (fireChange s).meta = s.meta := rfl

@[simp] theorem fireChange_treeItemCalls (s : Sys) :
    (fireChange s).treeItemCalls = s.treeItemCalls := rfl

@[simp] theorem fireChange_childrenCalls (s : Sys) :
    (fireChange s).childrenCalls = s.childrenCalls := rfl

@[simp] theorem logDebug_meta (msg : String) (s : Sys) : (logDebug msg s).meta = s.meta := rfl

@[simp] theorem logDebug_reportedErrors (msg : String) (s : Sys) :
    (logDebug msg s).reportedErrors = s.reportedErrors := rfl

@[simp] theorem logDebug_debugLogs (msg : String) (s : Sys) :
    (logDebug msg s).debugLogs = s.debugLogs ++ [msg] := rfl

@[simp] theorem logDebug_dropCalls (msg : String) (s : Sys) :
    (logDebug msg s).dropCalls = s.dropCalls := rfl

@[simp] theorem getMeta_fst_children (s : Sys) (n : Nat) :
    (getMeta s n).1.children = childrenOf s n := by
  unfold getMeta childrenOf
  cases s.meta n <;> rfl

@[simp] theorem getMeta_fst_treeItem (s : Sys) (n : Nat) :
    (getMeta s n).1.treeItem = treeItemOf s n := by
  unfold getMeta treeItemOf
  cases s.meta n <;> rfl

@[simp] theorem getMeta_fst_parent (s : Sys) (n : Nat) :
    (getMeta s n).1.parent = parentOf s n := by
  unfold getMeta parentOf
  cases s.meta n <;> rfl

theorem clearSeq_foldl_none (fuel : Nat) (rec : Bool) (l : List Nat) :
    l.foldl (fun os c => os.bind (fun t => clearMetadataF fuel c rec t)) none = none := by
  induction l with
  | nil => rfl
  | cons c cs ih => exact ih

theorem clearSeqF_eq_foldl (fuel : Nat) (rec : Bool) (l : List Nat) (s : Sys) :
    l.foldl (fun os c => os.bind (fun t => clearMetadataF fuel c rec t)) (some s)
      = clearSeqF fuel rec l s := by
  induction l generalizing s with
  | nil => rfl
  | cons c cs ih =>
    show cs.foldl _ ((some s).bind (fun t => clearMetadataF fuel c rec t)) = _
    rw [clearSeqF]
    rcases h1 : clearMetadataF fuel c rec s with _ | s1
    · simp only [Option.some_bind, h1]
      exact clearSeq_foldl_none fuel rec cs
    · simp only [Option.some_bind, h1]
      exact ih s1

/-- One-step unfolding of `clearMetadataF` through `clearSeqF`. -/
theorem clearMetadataF_succ (fuel n : Nat) (rec : Bool) (s : Sys) :
    clearMetadataF (fuel + 1) n rec s
      = (if rec then
          match childrenOf s n with
          | some l => clearSeqF fuel rec l (getMeta s n).2
          | none => some (getMeta s n).2
        else some (getMeta s n).2).map (clearFields n) := by
  rw [clearMetadataF]
  rw [getMeta_fst_children]
  cases rec with
  | false => rfl
  | true =>
    rcases hch : childrenOf s n with _ | l
    · rfl
    · simp only [if_true]
      rw [clearSeqF_eq_foldl]

/-! ## Reachability through the cached children graph, and what
`clearMetadata` guarantees about it -/

/-- All three cached fields of the node (`treeItem`, `children`,
`decorations`) are clear. -/
def FieldsCleared (s : Sys) (n : Nat) : Prop :=
  treeItemOf s n = none ∧ childrenOf s n = none ∧ decorationsOf s n = none

/-- `Reach s n d`: node `d` is reachable from `n` through the cached
children lists of state `s` (reflexively) — these are exactly the
"descendants reachable through cached children" that recursive
invalidation visits. -/
inductive Reach (s : Sys) : Nat → Nat → Prop where
  | refl (n : Nat) : Reach s n n
  | step {n c d : Nat} (l : List Nat) (hl : childrenOf s n = some l) (hc : c ∈ l)
      (hr : Reach s c d) : Reach s n d

theorem Reach.eq_of_children_none {s : Sys} {n d : Nat} (h : Reach s n d)
    (hn : childrenOf s n = none) : d = n := by
  cases h with
  | refl => rfl
  | step l hl hc hr => simp [hn] at hl

/-- Intermediate states of a clearing pass: every node either still has its
children list from the base state `s0`, or has already been fully cleared. -/
def SubOf (s0 s : Sys) : Prop :=
  ∀ m, childrenOf s m = childrenOf s0 m ∨ FieldsCleared s m

/-- Coherence of an intermediate clearing state with respect to the base
state `s0`: a node already cleared has its whole `s0`-reachable set cleared. -/
def CohOf (s0 s : Sys) : Prop :=
  ∀ m, FieldsCleared s m → ∀ d, Reach s0 m d → FieldsCleared s d

/-- What any number of clearing steps preserves: cleared fields stay
cleared, parent back-references are untouched, metadata records are never
removed. -/
def ClearMono (s t : Sys) : Prop :=
  (∀ m, FieldsCleared s m → FieldsCleared t m) ∧
  (∀ m, parentOf t m = parentOf s m) ∧
  (∀ m, metadataExists s m = true → metadataExists t m = true)

theorem clearMono_rfl (s : Sys) : ClearMono s s :=
  ⟨fun _ h => h, fun _ => rfl, fun _ h => h⟩

theorem clearMono_trans {s t u : Sys} (h1 : ClearMono s t) (h2 : ClearMono t u) :
    ClearMono s u :=
  ⟨fun m h => h2.1 m (h1.1 m h), fun m => (h2.2.1 m).trans (h1.2.1 m),
    fun m h => h2.2.2 m (h1.2.2 m h)⟩

theorem fieldsCleared_getMeta (s : Sys) (n m : Nat) :
    FieldsCleared (getMeta s n).2 m ↔ FieldsCleared s m := by
  unfold FieldsCleared
  simp

theorem clearMono_getMeta (s : Sys) (n : Nat) : ClearMono s (getMeta s n).2 := by
  refine ⟨fun m h => ?_, fun m => ?_, fun m h => ?_⟩
  · exact (fieldsCleared_getMeta s n m).mpr h
  · simp
  · simp [h]

theorem subOf_getMeta {s0 s : Sys} (n : Nat) (h : SubOf s0 s) : SubOf s0 (getMeta s n).2 := by
  intro m
  rcases h m with h1 | h1
  · exact Or.inl (by simpa using h1)
  · exact Or.inr ((fieldsCleared_getMeta s n m).mpr h1)

theorem cohOf_getMeta {s0 s : Sys} (n : Nat) (h : CohOf s0 s) : CohOf s0 (getMeta s n).2 := by
  intro m hm d hr
  exact (fieldsCleared_getMeta s n d).mpr (h m ((fieldsCleared_getMeta s n m).mp hm) d hr)

theorem fieldsCleared_clearFields_self (n : Nat) (s : Sys) :
    FieldsCleared (clearFields n s) n := by
  unfold FieldsCleared
  simp

theorem fieldsCleared_clearFields_of {s : Sys} {m : Nat} (n : Nat)
    (h : FieldsCleared s m) : FieldsCleared (clearFields n s) m := by
  unfold FieldsCleared at h ⊢
  rcases h with ⟨h1, h2, h3⟩
  by_cases he : m = n <;> simp [he, h1, h2, h3]

theorem fieldsCleared_of_clearFields_ne {s : Sys} {m n : Nat} (hne : m ≠ n)
    (h : FieldsCleared (clearFields n s) m) : FieldsCleared s m := by
  unfold FieldsCleared at h ⊢
  simpa [hne] using h

theorem clearMono_clearFields (n : Nat) (s : Sys) : ClearMono s (clearFields n s) := by
  refine ⟨fun m h => fieldsCleared_clearFields_of n h, fun m => ?_, fun m h => ?_⟩
  · simp
  · simp [h]

/-- Induction statement for `clearMetadataF` (recursive mode): a successful
recursive clear preserves the clearing invariants, is monotone, and clears
every node reachable from the argument in the base state. -/
def MainProp (fuel : Nat) : Prop :=
  ∀ n s t s0, clearMetadataF fuel n true s = some t → SubOf s0 s → CohOf s0 s →
    SubOf s0 t ∧ CohOf s0 t ∧ ClearMono s t ∧ (∀ d, Reach s0 n d → FieldsCleared t d)

/-- Induction statement for `clearSeqF` (recursive mode). -/
def SeqProp (fuel : Nat) : Prop :=
  ∀ l s t s0, clearSeqF fuel true l s = some t → SubOf s0 s → CohOf s0 s →
    SubOf s0 t ∧ CohOf s0 t ∧ ClearMono s t ∧
      (∀ c, c ∈ l → ∀ d, Reach s0 c d → FieldsCleared t d)

theorem seq_of_main (fuel : Nat) (H : MainProp fuel) : SeqProp fuel := by
  intro l
  induction l with
  | nil =>
    intro s t s0 h hs hc
    rw [clearSeqF] at h
    cases h
    exact ⟨hs, hc, clearMono_rfl s, fun c hcmem => absurd hcmem (List.not_mem_nil c)⟩
  | cons c cs ih =>
    intro s t s0 h hs hc
    rw [clearSeqF] at h
    rcases h1 : clearMetadataF fuel c true s with _ | s1
    · rw [h1] at h
      exact absurd h (by simp)
    · rw [h1] at h
      rcases H c s s1 s0 h1 hs hc with ⟨hsub1, hcoh1, hmono1, hcl1⟩
      rcases ih s1 t s0 h hsub1 hcoh1 with ⟨hsub2, hcoh2, hmono2, hcl2⟩
      refine ⟨hsub2, hcoh2, clearMono_trans hmono1 hmono2, fun e he d hr => ?_⟩
      rcases List.mem_cons.mp he with he1 | he1
      · subst he1
        exact hmono2.1 d (hcl1 d hr)
      · exact hcl2 e he1 d hr

theorem main_all : ∀ fuel, MainProp fuel := by
  intro fuel
  induction fuel with
  | zero =>
    intro n s t s0 h hs hc
    rw [clearMetadataF] at h
    exact absurd h (by simp)
  | succ fuel ih =>
    have hseq : SeqProp fuel := seq_of_main fuel ih
    intro n s t s0 h hs hc
    rw [clearMetadataF_succ] at h
    simp only [if_true] at h
    rw [Option.map_eq_some'] at h
    rcases h with ⟨s2, hrest, hts⟩
    subst hts
    split at hrest
    · -- cached children present: the sequence over them succeeded
      rename_i l hch
      rcases hseq l (getMeta s n).2 s2 s0 hrest (subOf_getMeta n hs) (cohOf_getMeta n hc) with
        ⟨hsub2, hcoh2, hmono2, hcl2⟩
      have hnotcl : ¬ FieldsCleared s n := by
        intro hcl
        rw [hcl.2.1] at hch
        exact absurd hch (by simp)
      have hch0 : childrenOf s0 n = some l := by
        rcases hs n with h1 | h1
        · exact h1 ▸ hch
        · exact absurd h1 hnotcl
      have hclaim : ∀ d, Reach s0 n d → FieldsCleared (clearFields n s2) d := by
        intro d hr
        cases hr with
        | refl => exact fieldsCleared_clearFields_self n s2
        | step lx hlx hcx hrx =>
          rw [hch0] at hlx
          cases hlx
          exact fieldsCleared_clearFields_of n (hcl2 _ hcx d hrx)
      refine ⟨?_, ?_, ?_, hclaim⟩
      · intro m
        by_cases he : m = n
        · subst he
          exact Or.inr (fieldsCleared_clearFields_self m s2)
        · rcases hsub2 m with h1 | h1
          · exact Or.inl (by simpa [he] using h1)
          · exact Or.inr (fieldsCleared_clearFields_of n h1)
      · intro m hm d hr
        by_cases he : m = n
        · subst he
          exact hclaim d hr
        · exact fieldsCleared_clearFields_of n
            (hcoh2 m (fieldsCleared_of_clearFields_ne he hm) d hr)
      · exact clearMono_trans (clearMono_getMeta s n)
          (clearMono_trans hmono2 (clearMono_clearFields n s2))
    · -- no cached children
      rename_i hch
      cases hrest
      have hclaim : ∀ d, Reach s0 n d →
          FieldsCleared (clearFields n (getMeta s n).2) d := by
        intro d hr
        rcases hs n with h1 | h1
        · rw [hr.eq_of_children_none (h1 ▸ hch)]
          exact fieldsCleared_clearFields_self n (getMeta s n).2
        · have h2 := hc n h1 d hr
          exact fieldsCleared_clearFields_of n ((fieldsCleared_getMeta s n d).mpr h2)
      refine ⟨?_, ?_,
        clearMono_trans (clearMono_getMeta s n) (clearMono_clearFields n _), hclaim⟩
      · intro m
        by_cases he : m = n
        · subst he
          exact Or.inr (fieldsCleared_clearFields_self m _)
        · rcases hs m with h1 | h1
          · exact Or.inl (by simpa [he] using h1)
          · exact Or.inr (fieldsCleared_clearFields_of n ((fieldsCleared_getMeta s n m).mpr h1))
      · intro m hm d hr
        by_cases he : m = n
        · subst he
          exact hclaim d hr
        · have hm1 : FieldsCleared s m :=
            (fieldsCleared_getMeta s n m).mp (fieldsCleared_of_clearFields_ne he hm)
          exact fieldsCleared_clearFields_of n
            ((fieldsCleared_getMeta s n d).mpr (hc m hm1 d hr))

/-- Every state is coherent with itself: a cleared node has no cached
children, so it reaches only itself. -/
theorem cohOf_self (s : Sys) : CohOf s s := by
  intro m hm d hr
  have : d = m := hr.eq_of_children_none hm.2.1
  subst this
  exact hm

theorem subOf_self (s : Sys) : SubOf s s := fun _ => Or.inl rfl

/-! ## Frame and behaviour lemmas for `getTreeItem` -/

theorem parentOf_eq_of_meta {s t : Sys} (h : t.meta = s.meta) (m : Nat) :
    parentOf t m = parentOf s m := by
  unfold parentOf
  rw [h]

theorem childrenOf_eq_of_meta {s t : Sys} (h : t.meta = s.meta) (m : Nat) :
    childrenOf t m = childrenOf s m := by
  unfold childrenOf
  rw [h]

theorem treeItemOf_eq_of_meta {s t : Sys} (h : t.meta = s.meta) (m : Nat) :
    treeItemOf t m = treeItemOf s m := by
  unfold treeItemOf
  rw [h]

theorem applyChecked_meta (env : Env) (n : Nat) (it : TreeItm) (s : Sys) :
    (applyChecked env n it s).2.meta = s.meta := by
  unfold applyChecked
  cases (env n).getCheckedCb with
  | none => rfl
  | some cb => cases cb <;> rfl

theorem applyChecked_treeItemCalls (env : Env) (n : Nat) (it : TreeItm) (s : Sys) :
    (applyChecked env n it s).2.treeItemCalls = s.treeItemCalls := by
  unfold applyChecked
  cases (env n).getCheckedCb with
  | none => rfl
  | some cb => cases cb <;> rfl

theorem applyChecked_childrenCalls (env : Env) (n : Nat) (it : TreeItm) (s : Sys) :
    (applyChecked env n it s).2.childrenCalls = s.childrenCalls := by
  unfold applyChecked
  cases (env n).getCheckedCb with
  | none => rfl
  | some cb => cases cb <;> rfl

theorem applyChecked_reportedErrors (env : Env) (n : Nat) (it : TreeItm) (s : Sys) :
    (applyChecked env n it s).2.reportedErrors = s.reportedErrors := by
  unfold applyChecked
  cases (env n).getCheckedCb with
  | none => rfl
  | some cb => cases cb <;> rfl

theorem fireDecorationsIfAny_meta (env : Env) (n : Nat) (it : TreeItm) (s : Sys) :
    (fireDecorationsIfAny env n it s).2.meta = s.meta := by
  unfold fireDecorationsIfAny
  split
  · cases it.resourceUri <;> rfl
  · rfl

theorem fireDecorationsIfAny_treeItemCalls (env : Env) (n : Nat) (it : TreeItm) (s : Sys) :
    (fireDecorationsIfAny env n it s).2.treeItemCalls = s.treeItemCalls := by
  unfold fireDecorationsIfAny
  split
  · cases it.resourceUri <;> rfl
  · rfl

theorem fireDecorationsIfAny_childrenCalls (env : Env) (n : Nat) (it : TreeItm) (s : Sys) :
    (fireDecorationsIfAny env n it s).2.childrenCalls = s.childrenCalls := by
  unfold fireDecorationsIfAny
  split
  · cases it.resourceUri <;> rfl
  · rfl

theorem fireDecorationsIfAny_reportedErrors (env : Env) (n : Nat) (it : TreeItm) (s : Sys) :
    (fireDecorationsIfAny env n it s).2.reportedErrors = s.reportedErrors := by
  unfold fireDecorationsIfAny
  split
  · cases it.resourceUri <;> rfl
  · rfl

theorem fireDecorationsIfAny_ok {env : Env} {n : Nat} {it r : TreeItm} {s t : Sys}
    (h : fireDecorationsIfAny env n it s = (.ok r, t)) : r = it ∧ t.meta = s.meta := by
  unfold fireDecorationsIfAny at h
  split at h
  · cases hu : it.resourceUri with
    | none =>
      rw [hu] at h
      cases h
    | some u =>
      rw [hu] at h
      cases h
      exact ⟨rfl, rfl⟩
  · cases h
    exact ⟨rfl, rfl⟩

theorem parentOf_lookupParentItem (pr : Option Nat) (s : Sys) (m : Nat) :
    parentOf (lookupParentItem pr s).2 m = parentOf s m := by
  cases pr with
  | none => rfl
  | some p => simp [lookupParentItem]

theorem childrenOf_lookupParentItem (pr : Option Nat) (s : Sys) (m : Nat) :
    childrenOf (lookupParentItem pr s).2 m = childrenOf s m := by
  cases pr with
  | none => rfl
  | some p => simp [lookupParentItem]

theorem treeItemOf_lookupParentItem (pr : Option Nat) (s : Sys) (m : Nat) :
    treeItemOf (lookupParentItem pr s).2 m = treeItemOf s m := by
  cases pr with
  | none => rfl
  | some p => simp [lookupParentItem]

theorem lookupParentItem_treeItemCalls (pr : Option Nat) (s : Sys) :
    (lookupParentItem pr s).2.treeItemCalls = s.treeItemCalls := by
  cases pr with
  | none => rfl
  | some p => simp [lookupParentItem]

theorem lookupParentItem_childrenCalls (pr : Option Nat) (s : Sys) :
    (lookupParentItem pr s).2.childrenCalls = s.childrenCalls := by
  cases pr with
  | none => rfl
  | some p => simp [lookupParentItem]

theorem lookupParentItem_reportedErrors (pr : Option Nat) (s : Sys) :
    (lookupParentItem pr s).2.reportedErrors = s.reportedErrors := by
  cases pr with
  | none => rfl
  | some p => simp [lookupParentItem]

theorem parentOf_getD (s : Sys) (n : Nat) :
    ((s.meta n).getD {}).parent = parentOf s n := by
  unfold parentOf
  cases s.meta n <;> rfl

theorem childrenOf_getD (s : Sys) (n : Nat) :
    ((s.meta n).getD {}).children = childrenOf s n := by
  unfold childrenOf
  cases s.meta n <;> rfl

theorem treeItemOf_getD (s : Sys) (n : Nat) :
    ((s.meta n).getD {}).treeItem = treeItemOf s n := by
  unfold treeItemOf
  cases s.meta n <;> rfl

theorem parentOf_setMeta_treeItem (s : Sys) (n : Nat) (it : Option TreeItm) (m : Nat) :
    parentOf (setMeta s n (fun mm => { mm with treeItem := it })) m = parentOf s m := by
  rw [parentOf_setMeta]
  split
  · rename_i he
    subst he
    exact parentOf_getD s m
  · rfl

theorem childrenOf_setMeta_treeItem (s : Sys) (n : Nat) (it : Option TreeItm) (m : Nat) :
    childrenOf (setMeta s n (fun mm => { mm with treeItem := it })) m = childrenOf s m := by
  rw [childrenOf_setMeta]
  split
  · rename_i he
    subst he
    exact childrenOf_getD s m
  · rfl

theorem treeItemOf_setMeta_treeItem_self (s : Sys) (n : Nat) (it : Option TreeItm) :
    treeItemOf (setMeta s n (fun mm => { mm with treeItem := it })) n = it := by
  rw [treeItemOf_setMeta]
  simp

theorem getTreeItemRender_frame {env : Env} {n : Nat} {pr : Option Nat} {s : Sys}
    {r : Except String TreeItm} {t : Sys} (h : getTreeItemRender env n pr s = (r, t)) :
    (∀ m, parentOf t m = parentOf s m) ∧
    (∀ m, childrenOf t m = childrenOf s m) ∧
    t.treeItemCalls = s.treeItemCalls ∧
    t.childrenCalls = s.childrenCalls ∧
    t.reportedErrors = s.reportedErrors := by
  unfold getTreeItemRender at h
  split at h
  · cases h
    exact ⟨fun _ => rfl, fun _ => rfl, rfl, rfl, rfl⟩
  · rename_i it0 hcb
    split at h
    · rename_i e s2 heq
      cases h
      have h2 : (applyChecked env n it0 s).2 = t := by rw [heq]
      refine ⟨fun m => ?_, fun m => ?_, ?_, ?_, ?_⟩
      · rw [← h2]
        exact parentOf_eq_of_meta (applyChecked_meta env n _ s) m
      · rw [← h2]
        exact childrenOf_eq_of_meta (applyChecked_meta env n _ s) m
      · rw [← h2]
        exact applyChecked_treeItemCalls env n _ s
      · rw [← h2]
        exact applyChecked_childrenCalls env n _ s
      · rw [← h2]
        exact applyChecked_reportedErrors env n _ s
    · rename_i it1 s2 heq
      have h2 : (applyChecked env n it0 s).2 = s2 := by rw [heq]
      have hmeta2 : s2.meta = s.meta := by
        rw [← h2]
        exact applyChecked_meta env n _ s
      have htic2 : s2.treeItemCalls = s.treeItemCalls := by
        rw [← h2]
        exact applyChecked_treeItemCalls env n _ s
      have hcc2 : s2.childrenCalls = s.childrenCalls := by
        rw [← h2]
        exact applyChecked_childrenCalls env n _ s
      have hre2 : s2.reportedErrors = s.reportedErrors := by
        rw [← h2]
        exact applyChecked_reportedErrors env n _ s
      split at h
      · cases h
        exact ⟨parentOf_eq_of_meta hmeta2, childrenOf_eq_of_meta hmeta2, htic2, hcc2, hre2⟩
      · dsimp only at h
        split at h
        · cases h
          refine ⟨fun m => ?_, fun m => ?_, ?_, ?_, ?_⟩
          · rw [parentOf_lookupParentItem]
            exact parentOf_eq_of_meta hmeta2 m
          · rw [childrenOf_lookupParentItem]
            exact childrenOf_eq_of_meta hmeta2 m
          · rw [lookupParentItem_treeItemCalls]
            exact htic2
          · rw [lookupParentItem_childrenCalls]
            exact hcc2
          · rw [lookupParentItem_reportedErrors]
            exact hre2
        · rename_i it3 hsg
          have h3 : (fireDecorationsIfAny env n it3
              (setMeta (lookupParentItem pr s2).2 n
                (fun mm => { mm with treeItem := some it3 }))).2 = t := by rw [h]
          refine ⟨fun m => ?_, fun m => ?_, ?_, ?_, ?_⟩
          · rw [← h3, parentOf_eq_of_meta (fireDecorationsIfAny_meta env n it3 _) m,
              parentOf_setMeta_treeItem, parentOf_lookupParentItem]
            exact parentOf_eq_of_meta hmeta2 m
          · rw [← h3, childrenOf_eq_of_meta (fireDecorationsIfAny_meta env n it3 _) m,
              childrenOf_setMeta_treeItem, childrenOf_lookupParentItem]
            exact childrenOf_eq_of_meta hmeta2 m
          · rw [← h3, fireDecorationsIfAny_treeItemCalls, setMeta_treeItemCalls,
              lookupParentItem_treeItemCalls]
            exact htic2
          · rw [← h3, fireDecorationsIfAny_childrenCalls, setMeta_childrenCalls,
              lookupParentItem_childrenCalls]
            exact hcc2
          · rw [← h3, fireDecorationsIfAny_reportedErrors, setMeta_reportedErrors,
              lookupParentItem_reportedErrors]
            exact hre2

theorem getTreeItemRender_ok {env : Env} {n : Nat} {pr : Option Nat} {s : Sys}
    {it : TreeItm} {t : Sys} (h : getTreeItemRender env n pr s = (.ok it, t)) :
    treeItemOf t n = some it := by
  unfold getTreeItemRender at h
  split at h
  · injection h with h1 h2
    cases h1
  · split at h
    · injection h with h1 h2
      cases h1
    · split at h
      · injection h with h1 h2
        cases h1
      · dsimp only at h
        split at h
        · injection h with h1 h2
          cases h1
        · rename_i it3 hsg
          rcases fireDecorationsIfAny_ok h with ⟨hit, hmeta⟩
          subst hit
          rw [treeItemOf_eq_of_meta hmeta]
          exact treeItemOf_setMeta_treeItem_self _ n (some it)

theorem getMeta_of_isSome {s : Sys} {n : Nat} {mm : NodeMeta} (h : s.meta n = some mm) :
    getMeta s n = (mm, s) := by
  unfold getMeta
  rw [h]

theorem getTreeItemInner_hit {env : Env} {s : Sys} {n : Nat} {it : TreeItm}
    (h : treeItemOf s n = some it) : getTreeItemInner env n s = (.ok it, s) := by
  rcases hm : s.meta n with _ | mm
  · rw [treeItemOf, hm] at h
    cases h
  · have hti : mm.treeItem = some it := by
      rw [treeItemOf, hm] at h
      exact h
    unfold getTreeItemInner
    rw [getMeta_of_isSome hm]
    dsimp only
    rw [hti]

theorem getTreeItemInner_miss {env : Env} {s : Sys} {n : Nat}
    (h : treeItemOf s n = none) :
    getTreeItemInner env n s
      = getTreeItemRender env n (parentOf s n) (bumpTreeItemCalls n (getMeta s n).2) := by
  unfold getTreeItemInner
  dsimp only
  have h1 : (getMeta s n).1.treeItem = none := by
    rw [getMeta_fst_treeItem]
    exact h
  rw [h1, getMeta_fst_parent]

theorem getTreeItemInner_of_ok {env : Env} {n : Nat} {s : Sys} {it : TreeItm} {t : Sys}
    (h : getTreeItemInner env n s = (.ok it, t)) : treeItemOf t n = some it := by
  rcases hcache : treeItemOf s n with _ | it0
  · rw [getTreeItemInner_miss hcache] at h
    exact getTreeItemRender_ok h
  · rw [getTreeItemInner_hit hcache] at h
    injection h with h1 h2
    injection h1 with h1
    subst h1
    subst h2
    exact hcache

theorem getTreeItemInner_parent_frame {env : Env} {n : Nat} {s : Sys}
    {r : Except String TreeItm} {t : Sys} (h : getTreeItemInner env n s = (r, t)) (m : Nat) :
    parentOf t m = parentOf s m := by
  rcases hcache : treeItemOf s n with _ | it0
  · rw [getTreeItemInner_miss hcache] at h
    have := (getTreeItemRender_frame h).1 m
    simpa using this
  · rw [getTreeItemInner_hit hcache] at h
    injection h with h1 h2
    subst h2
    rfl

theorem getTreeItemInner_children_frame {env : Env} {n : Nat} {s : Sys}
    {r : Except String TreeItm} {t : Sys} (h : getTreeItemInner env n s = (r, t)) (m : Nat) :
    childrenOf t m = childrenOf s m := by
  rcases hcache : treeItemOf s n with _ | it0
  · rw [getTreeItemInner_miss hcache] at h
    have := (getTreeItemRender_frame h).2.1 m
    simpa using this
  · rw [getTreeItemInner_hit hcache] at h
    injection h with h1 h2
    subst h2
    rfl

/-- `getTreeItem` on a node with a cached item: the identical cached item is
returned and the state is completely untouched (no callback invocation). -/
theorem getTreeItem_cache_hit {env : Env} {s : Sys} {n : Nat} {it : TreeItm}
    (h : treeItemOf s n = some it) : getTreeItem env n s = (.ok it, s) := by
  unfold getTreeItem
  rw [getTreeItemInner_hit h]

/-- A successful `getTreeItem` leaves the returned item in the cache. -/
theorem getTreeItem_of_ok {env : Env} {n : Nat} {s : Sys} {it : TreeItm} {t : Sys}
    (h : getTreeItem env n s = (.ok it, t)) : treeItemOf t n = some it := by
  unfold getTreeItem at h
  rcases hinner : getTreeItemInner env n s with ⟨r, t1⟩
  rw [hinner] at h
  cases r with
  | ok it1 =>
    injection h with h1 h2
    subst h2
    injection h1 with h1
    subst h1
    exact getTreeItemInner_of_ok hinner
  | error e => cases h

/-- `getTreeItem` never writes a parent back-reference. -/
theorem getTreeItem_parent_frame (env : Env) (n : Nat) (s : Sys) (m : Nat) :
    parentOf (getTreeItem env n s).2 m = parentOf s m := by
  unfold getTreeItem
  rcases hinner : getTreeItemInner env n s with ⟨r, t1⟩
  cases r with
  | ok it1 => exact getTreeItemInner_parent_frame hinner m
  | error e =>
    dsimp only
    rw [parentOf_reportError]
    exact getTreeItemInner_parent_frame hinner m

/-- A cache miss invokes the node's `getTreeItem` callback exactly once
(whether or not the render pipeline then succeeds). -/
theorem getTreeItem_bump {env : Env} {s : Sys} {n : Nat} (h : treeItemOf s n = none) :
    (getTreeItem env n s).2.treeItemCalls n = s.treeItemCalls n + 1 := by
  unfold getTreeItem
  rw [getTreeItemInner_miss h]
  rcases hrender : getTreeItemRender env n (parentOf s n)
      (bumpTreeItemCalls n (getMeta s n).2) with ⟨r, t1⟩
  have htc := (getTreeItemRender_frame hrender).2.2.1
  cases r with
  | ok it1 =>
    dsimp only
    rw [htc]
    simp
  | error e =>
    dsimp only
    rw [reportError_treeItemCalls, htc]
    simp

/-! ## Frame and behaviour lemmas for `getChildren` -/

theorem getChildren_hit {env : Env} {s : Sys} {n : Nat} {l : List Nat}
    (h : childrenOf s n = some l) : getChildren env (some n) s = (.ok (some l), s) := by
  rcases hm : s.meta n with _ | mm
  · rw [childrenOf, hm] at h
    cases h
  · have hch : mm.children = some l := by
      rw [childrenOf, hm] at h
      exact h
    unfold getChildren
    dsimp only
    rw [getMeta_of_isSome hm]
    dsimp only
    rw [hch]

theorem getChildren_miss {env : Env} {s : Sys} {n : Nat} (h : childrenOf s n = none) :
    getChildren env (some n) s =
      (match getChildrenInner env n (getMeta s n).2 with
       | (.error e, s1) => (.ok none, reportError ("getChildren failed: " ++ e) s1)
       | (.ok r, s1) => (.ok r, s1)) := by
  unfold getChildren
  dsimp only
  have h1 : (getMeta s n).1.children = none := by
    rw [getMeta_fst_children]
    exact h
  rw [h1]

theorem getChildrenInner_err {env : Env} {n : Nat} (s : Sys) {e : String}
    (hcb : (env n).getChildrenCb = some (.error e)) :
    getChildrenInner env n s = (.error e, bumpChildrenCalls n (getMeta s n).2) := by
  unfold getChildrenInner
  dsimp only
  rw [hcb]

theorem getChildrenInner_undef {env : Env} {n : Nat} (s : Sys)
    (hcb : (env n).getChildrenCb = some (.ok none)) :
    getChildrenInner env n s
      = (.ok none, setMeta (bumpChildrenCalls n (getMeta s n).2) n
          (fun mm => { mm with children := none })) := by
  unfold getChildrenInner
  dsimp only
  rw [hcb]

theorem getChildrenInner_arr {env : Env} {n : Nat} (s : Sys) {l : List Nat}
    (hcb : (env n).getChildrenCb = some (.ok (some l))) :
    getChildrenInner env n s
      = (.ok (some l), setParents n l (setMeta (bumpChildrenCalls n (getMeta s n).2) n
          (fun mm => { mm with children := some l }))) := by
  unfold getChildrenInner
  dsimp only
  rw [hcb]

theorem getChildrenInner_nocb {env : Env} {n : Nat} (s : Sys)
    (hcb : (env n).getChildrenCb = none) :
    getChildrenInner env n s
      = (.ok none, setMeta (getMeta s n).2 n (fun mm => { mm with children := none })) := by
  unfold getChildrenInner
  dsimp only
  rw [hcb]

theorem getMeta_getMeta (s : Sys) (n : Nat) :
    getMeta (getMeta s n).2 n = ((s.meta n).getD {}, (getMeta s n).2) := by
  unfold getMeta
  rcases hm : s.meta n with _ | mm
  · dsimp only
    simp
  · dsimp only
    rw [hm]
    rfl

/-! Frames for `setParents` (parent back-reference writes). -/

theorem childrenOf_setMeta_parent (t : Sys) (c : Nat) (p : Option Nat) (m : Nat) :
    childrenOf (setMeta t c (fun mm => { mm with parent := p })) m = childrenOf t m := by
  rw [childrenOf_setMeta]
  split
  · rename_i he
    subst he
    exact childrenOf_getD t m
  · rfl

theorem treeItemOf_setMeta_parent (t : Sys) (c : Nat) (p : Option Nat) (m : Nat) :
    treeItemOf (setMeta t c (fun mm => { mm with parent := p })) m = treeItemOf t m := by
  rw [treeItemOf_setMeta]
  split
  · rename_i he
    subst he
    exact treeItemOf_getD t m
  · rfl

theorem parentOf_setMeta_parent_self (t : Sys) (c : Nat) (p : Option Nat) :
    parentOf (setMeta t c (fun mm => { mm with parent := p })) c = p := by
  rw [parentOf_setMeta]
  simp

theorem parentOf_setMeta_parent_ne (t : Sys) (c : Nat) (p : Option Nat) {m : Nat}
    (h : m ≠ c) : parentOf (setMeta t c (fun mm => { mm with parent := p })) m
      = parentOf t m := by
  rw [parentOf_setMeta]
  simp [h]

theorem childrenOf_setParents (p : Nat) (l : List Nat) (t : Sys) (m : Nat) :
    childrenOf (setParents p l t) m = childrenOf t m := by
  induction l generalizing t with
  | nil => rfl
  | cons c cs ih =>
    show childrenOf (setParents p cs _) m = _
    rw [ih, childrenOf_setMeta_parent]

theorem treeItemOf_setParents (p : Nat) (l : List Nat) (t : Sys) (m : Nat) :
    treeItemOf (setParents p l t) m = treeItemOf t m := by
  induction l generalizing t with
  | nil => rfl
  | cons c cs ih =>
    show treeItemOf (setParents p cs _) m = _
    rw [ih, treeItemOf_setMeta_parent]

theorem parentOf_setParents_notmem (p : Nat) {l : List Nat} (t : Sys) {m : Nat}
    (h : m ∉ l) : parentOf (setParents p l t) m = parentOf t m := by
  induction l generalizing t with
  | nil => rfl
  | cons c0 cs ih =>
    have h1 : m ∉ cs := fun hc => h (List.mem_cons_of_mem c0 hc)
    have h2 : m ≠ c0 := fun he => h (by rw [he]; exact List.mem_cons_self c0 cs)
    show parentOf (setParents p cs (setMeta t c0 (fun mm => { mm with parent := some p }))) m
      = _
    rw [ih _ h1]
    exact parentOf_setMeta_parent_ne _ c0 (some p) h2

theorem parentOf_setParents_mem (p : Nat) {l : List Nat} (t : Sys) {c : Nat}
    (h : c ∈ l) : parentOf (setParents p l t) c = some p := by
  induction l generalizing t with
  | nil => cases h
  | cons c0 cs ih =>
    show parentOf (setParents p cs _) c = _
    by_cases hc : c ∈ cs
    · exact ih _ hc
    · have he : c = c0 := by
        rcases List.mem_cons.mp h with h1 | h1
        · exact h1
        · exact absurd h1 hc
      subst he
      rw [parentOf_setParents_notmem p _ hc, parentOf_setMeta_parent_self]

theorem setParents_childrenCalls (p : Nat) (l : List Nat) (t : Sys) :
    (setParents p l t).childrenCalls = t.childrenCalls := by
  induction l generalizing t with
  | nil => rfl
  | cons c cs ih =>
    show (setParents p cs _).childrenCalls = _
    rw [ih, setMeta_childrenCalls]

theorem setParents_reportedErrors (p : Nat) (l : List Nat) (t : Sys) :
    (setParents p l t).reportedErrors = t.reportedErrors := by
  induction l generalizing t with
  | nil => rfl
  | cons c cs ih =>
    show (setParents p cs _).reportedErrors = _
    rw [ih, setMeta_reportedErrors]

theorem getMeta_snd_getMeta (s : Sys) (n : Nat) :
    (getMeta (getMeta s n).2 n).2 = (getMeta s n).2 := by
  rw [getMeta_getMeta]

/-- Cache miss, producer returns an array `l` (possibly empty): the array is
returned and cached, the producer was invoked once, and each child received
the parent back-reference. -/
theorem getChildren_arr_eq {env : Env} {s : Sys} {n : Nat} {l : List Nat}
    (h : childrenOf s n = none) (hcb : (env n).getChildrenCb = some (.ok (some l))) :
    getChildren env (some n) s
      = (.ok (some l), setParents n l (setMeta (bumpChildrenCalls n (getMeta s n).2) n
          (fun mm => { mm with children := some l }))) := by
  rw [getChildren_miss h, getChildrenInner_arr _ hcb, getMeta_snd_getMeta]

/-- Cache miss, producer returns `undefined`: nothing is returned and the
`children` field is (re)assigned `undefined`, so nothing is cached. -/
theorem getChildren_undef_eq {env : Env} {s : Sys} {n : Nat}
    (h : childrenOf s n = none) (hcb : (env n).getChildrenCb = some (.ok none)) :
    getChildren env (some n) s
      = (.ok none, setMeta (bumpChildrenCalls n (getMeta s n).2) n
          (fun mm => { mm with children := none })) := by
  rw [getChildren_miss h, getChildrenInner_undef _ hcb, getMeta_snd_getMeta]

/-- Cache miss, producer throws: the wrapper reports the prefixed error and
the call resolves with `undefined`; the `children` assignment never ran. -/
theorem getChildren_err_eq {env : Env} {s : Sys} {n : Nat} {e : String}
    (h : childrenOf s n = none) (hcb : (env n).getChildrenCb = some (.error e)) :
    getChildren env (some n) s
      = (.ok none, reportError ("getChildren failed: " ++ e)
          (bumpChildrenCalls n (getMeta s n).2)) := by
  rw [getChildren_miss h, getChildrenInner_err _ hcb, getMeta_snd_getMeta]

/-- `getChildren` never rejects towards the host: every error of the body is
swallowed by `reportErrorsNoRethrow`. -/
theorem getChildren_never_errors (env : Env) (node : Option Nat) (s : Sys) (e : String) :
    (getChildren env node s).1 ≠ .error e := by
  cases node with
  | none => simp [getChildren]
  | some n =>
    rcases hch : childrenOf s n with _ | l
    · rw [getChildren_miss hch]
      rcases hinner : getChildrenInner env n (getMeta s n).2 with ⟨r, s1⟩
      cases r <;> simp
    · rw [getChildren_hit hch]
      simp

/-- A cache miss on a node that has a children producer invokes the producer
exactly once, whatever it returns (array, `undefined`, or a throw). -/
theorem getChildren_bump {env : Env} {s : Sys} {n : Nat} (h : childrenOf s n = none)
    (hcb : (env n).getChildrenCb.isSome = true) :
    (getChildren env (some n) s).2.childrenCalls n = s.childrenCalls n + 1 := by
  rcases hcbv : (env n).getChildrenCb with _ | cb
  · rw [hcbv] at hcb
    cases hcb
  · cases cb with
    | error e =>
      rw [getChildren_err_eq h hcbv]
      dsimp only
      rw [reportError_childrenCalls]
      simp
    | ok co =>
      cases co with
      | none =>
        rw [getChildren_undef_eq h hcbv]
        dsimp only
        rw [setMeta_childrenCalls]
        simp
      | some l =>
        rw [getChildren_arr_eq h hcbv]
        dsimp only
        rw [setParents_childrenCalls, setMeta_childrenCalls]
        simp

theorem getTreeItemRender_err {env : Env} {n : Nat} {e : String} (pr : Option Nat) (s : Sys)
    (hcb : (env n).getTreeItemCb = .error e) :
    getTreeItemRender env n pr s = (.error e, s) := by
  unfold getTreeItemRender
  rw [hcb]

theorem getTreeItem_err_eq {env : Env} {s : Sys} {n : Nat} {e : String}
    (h : treeItemOf s n = none) (hcb : (env n).getTreeItemCb = .error e) :
    getTreeItem env n s
      = (.error e, reportError ("getTreeItem failed: " ++ e)
          (bumpTreeItemCalls n (getMeta s n).2)) := by
  unfold getTreeItem
  rw [getTreeItemInner_miss h, getTreeItemRender_err _ _ hcb]

/-! ### Claim C5 -/

/-- Claim C5.  If `getTreeItem` returned `.ok it` for a node, then calling it
again with no intervening invalidation returns the identical cached item
`it` and leaves the state completely unchanged — in particular the node's
`getTreeItem` and `getChecked` callbacks are not invoked again (all
invocation counters are part of the unchanged state). -/
theorem getTreeItem_cached_second_call (env : Env) (n : Nat) (s : Sys) (it : TreeItm)
    (h : (getTreeItem env n s).1 = .ok it) :
    getTreeItem env n ((getTreeItem env n s).2) = (.ok it, (getTreeItem env n s).2) := by
  rcases hfirst : getTreeItem env n s with ⟨r, t⟩
  rw [hfirst] at h
  dsimp only at h
  subst h
  dsimp only
  exact getTreeItem_cache_hit (getTreeItem_of_ok hfirst)

/-- Environment for the claim C5 witness: node 0 renders a plain item and
has a checkbox getter. -/
def envC5 : Env := fun _ =>
  { getTreeItemCb := .ok { label := "a" }, getCheckedCb := some (.ok true) }

/-- Witness for `getTreeItem_cached_second_call` at node 0 from the empty
state. -/
theorem getTreeItem_cached_second_call_witness :
    (getTreeItem envC5 0 {}).1 = .ok { label := "a", checkboxState := some true } ∧
    getTreeItem envC5 0 ((getTreeItem envC5 0 {}).2)
      = (.ok { label := "a", checkboxState := some true }, (getTreeItem envC5 0 {}).2) :=
  ⟨by rfl, getTreeItem_cached_second_call envC5 0 {} _ (by rfl)⟩

/-! ### Claim C10 -/

/-- Claim C10.  When a node's children producer returns `undefined`,
`getChildren` returns `undefined` without error and caches nothing, so a
second call invokes the producer again (two calls leave the invocation
counter at `+2`).  When the producer returns an array — the empty array
included — the array is returned and cached, and a second call returns the
identical cached array with a completely unchanged state (no re-invocation
until invalidation). -/
theorem getChildren_undefined_vs_array (env : Env) :
    (∀ n s, childrenOf s n = none → (env n).getChildrenCb = some (.ok none) →
      (getChildren env (some n) s).1 = .ok none ∧
      childrenOf (getChildren env (some n) s).2 n = none ∧
      (getChildren env (some n) ((getChildren env (some n) s).2)).2.childrenCalls n
        = s.childrenCalls n + 2) ∧
    (∀ n s l, childrenOf s n = none → (env n).getChildrenCb = some (.ok (some l)) →
      (getChildren env (some n) s).1 = .ok (some l) ∧
      childrenOf (getChildren env (some n) s).2 n = some l ∧
      getChildren env (some n) ((getChildren env (some n) s).2)
        = (.ok (some l), (getChildren env (some n) s).2)) := by
  constructor
  · intro n s h hcb
    have heq := getChildren_undef_eq h hcb
    have hch1 : childrenOf (getChildren env (some n) s).2 n = none := by
      rw [heq]
      dsimp only
      rw [childrenOf_setMeta]
      simp
    refine ⟨by rw [heq], hch1, ?_⟩
    have hcalls1 : (getChildren env (some n) s).2.childrenCalls n = s.childrenCalls n + 1 :=
      getChildren_bump h (by rw [hcb]; rfl)
    have hcalls2 := getChildren_bump hch1 (by rw [hcb]; rfl)
    rw [hcalls2, hcalls1]
  · intro n s l h hcb
    have heq := getChildren_arr_eq h hcb
    have hch1 : childrenOf (getChildren env (some n) s).2 n = some l := by
      rw [heq]
      dsimp only
      rw [childrenOf_setParents, childrenOf_setMeta]
      simp
    exact ⟨by rw [heq], hch1, getChildren_hit hch1⟩

/-- Environment for the claim C10 witness: node 5's producer returns
`undefined`, node 6's producer returns the empty array. -/
def envC10 : Env := fun n =>
  if n = 5 then { getChildrenCb := some (.ok none) }
  else if n = 6 then { getChildrenCb := some (.ok (some [])) }
  else {}

/-- Witness for `getChildren_undefined_vs_array` at nodes 5 and 6 from the
empty state. -/
theorem getChildren_undefined_vs_array_witness :
    ((getChildren envC10 (some 5) {}).1 = .ok none ∧
      childrenOf (getChildren envC10 (some 5) {}).2 5 = none ∧
      (getChildren envC10 (some 5) ((getChildren envC10 (some 5) {}).2)).2.childrenCalls 5
        = Sys.childrenCalls {} 5 + 2) ∧
    ((getChildren envC10 (some 6) {}).1 = .ok (some []) ∧
      childrenOf (getChildren envC10 (some 6) {}).2 6 = some [] ∧
      getChildren envC10 (some 6) ((getChildren envC10 (some 6) {}).2)
        = (.ok (some []), (getChildren envC10 (some 6) {}).2)) :=
  ⟨(getChildren_undefined_vs_array envC10).1 5 {} (by rfl) (by rfl),
    (getChildren_undefined_vs_array envC10).2 6 {} [] (by rfl) (by rfl)⟩

/-! ### Claim C4 -/

/-- Claim C4.  A throwing children producer is caught: the error is reported
through the shared error handler (with the `getChildren failed: ` prefix)
and the call resolves with `undefined` — indeed `getChildren` never rejects
towards the host at all.  A throwing renderer is reported (with the
`getTreeItem failed: ` prefix) and then rethrown, so the rejection reaches
the host. -/
theorem callback_error_handling (env : Env) :
    (∀ n s e, childrenOf s n = none → (env n).getChildrenCb = some (.error e) →
      (getChildren env (some n) s).1 = .ok none ∧
      (getChildren env (some n) s).2.reportedErrors
        = s.reportedErrors ++ ["getChildren failed: " ++ e]) ∧
    (∀ node s e, (getChildren env node s).1 ≠ .error e) ∧
    (∀ n s e, treeItemOf s n = none → (env n).getTreeItemCb = .error e →
      (getTreeItem env n s).1 = .error e ∧
      (getTreeItem env n s).2.reportedErrors
        = s.reportedErrors ++ ["getTreeItem failed: " ++ e]) := by
  refine ⟨fun n s e h hcb => ?_, fun node s e => getChildren_never_errors env node s e,
    fun n s e h hcb => ?_⟩
  · have heq := getChildren_err_eq h hcb
    constructor
    · rw [heq]
    · rw [heq]
      dsimp only
      rw [reportError_reportedErrors, bumpChildrenCalls_reportedErrors,
        getMeta_snd_reportedErrors]
  · have heq := getTreeItem_err_eq h hcb
    constructor
    · rw [heq]
    · rw [heq]
      dsimp only
      rw [reportError_reportedErrors, bumpTreeItemCalls_reportedErrors,
        getMeta_snd_reportedErrors]

/-- Environment for the claim C4 witness: node 3's producer throws, node 4's
renderer throws. -/
def envC4 : Env := fun n =>
  if n = 3 then { getChildrenCb := some (.error "boom") }
  else if n = 4 then { getTreeItemCb := .error "bang" }
  else {}

/-- Witness for `callback_error_handling` at nodes 3 and 4 from the empty
state. -/
theorem callback_error_handling_witness :
    ((getChildren envC4 (some 3) {}).1 = .ok none ∧
      (getChildren envC4 (some 3) {}).2.reportedErrors
        = Sys.reportedErrors {} ++ ["getChildren failed: " ++ "boom"]) ∧
    ((getChildren envC4 (some 3) {}).1 ≠ .error "nope") ∧
    ((getTreeItem envC4 4 {}).1 = .error "bang" ∧
      (getTreeItem envC4 4 {}).2.reportedErrors
        = Sys.reportedErrors {} ++ ["getTreeItem failed: " ++ "bang"]) :=
  ⟨(callback_error_handling envC4).1 3 {} "boom" (by rfl) (by rfl),
    (callback_error_handling envC4).2.1 (some 3) {} "nope",
    (callback_error_handling envC4).2.2 4 {} "bang" (by rfl) (by rfl)⟩

theorem seq_all (fuel : Nat) : SeqProp fuel := seq_of_main fuel (main_all fuel)

theorem getParent_fst (s : Sys) (n : Nat) : (getParent s n).1 = parentOf s n := by
  unfold getParent
  dsimp only
  rw [getMeta_fst_parent]

theorem dataChanged_single (fuel n : Nat) (s : Sys)
    (h : (dataChangedF fuel (some [n]) true s).isSome = true) :
    ∃ s2, clearSeqF fuel true [n] s = some s2 ∧
      dataChangedRun fuel (some [n]) true s = fireChange s2 := by
  unfold dataChangedF at h
  unfold dataChangedRun dataChangedF
  rcases hs2 : clearSeqF fuel true [n] s with _ | s2
  · rw [show (some [n]).getD s.data = [n] from rfl, hs2] at h
    cases h
  · refine ⟨s2, rfl, ?_⟩
    rw [show (some [n]).getD s.data = [n] from rfl, hs2]
    rfl

/-! ### Claim C7 -/

/-- Claim C7.  When `getChildren(p)`'s producer returns a list containing
`c`, the adapter records `p` as `c`'s parent back-reference; a recursive
invalidation of `p` (`dataChanged(p, recursive=true)`) does not clear the
back-reference, and re-rendering `p` (`getTreeItem`) does not touch it
either, so `getParent(c)` afterwards still returns exactly `p`. -/
theorem getParent_backreference_stable (env : Env) (p : Nat) (s : Sys) (l : List Nat)
    (c : Nat) (fuel : Nat)
    (h0 : childrenOf s p = none)
    (hcb : (env p).getChildrenCb = some (.ok (some l)))
    (hc : c ∈ l)
    (h2 : (dataChangedF fuel (some [p]) true ((getChildren env (some p) s).2)).isSome
      = true) :
    (getParent ((getTreeItem env p (dataChangedRun fuel (some [p]) true
        ((getChildren env (some p) s).2))).2) c).1 = some p := by
  have hpar1 : parentOf ((getChildren env (some p) s).2) c = some p := by
    rw [getChildren_arr_eq h0 hcb]
    dsimp only
    exact parentOf_setParents_mem p _ hc
  rcases dataChanged_single fuel p ((getChildren env (some p) s).2) h2 with ⟨s2, hs2, hrun⟩
  have hmono := (seq_all fuel [p] ((getChildren env (some p) s).2) s2
    ((getChildren env (some p) s).2) hs2 (subOf_self _) (cohOf_self _)).2.2.1
  have hpar2 : parentOf (dataChangedRun fuel (some [p]) true
      ((getChildren env (some p) s).2)) c = some p := by
    rw [hrun, parentOf_fireChange, hmono.2.1 c]
    exact hpar1
  rw [getParent_fst, getTreeItem_parent_frame]
  exact hpar2

/-- Environment for the claim C7 witness: node 0's producer returns `[1]`. -/
def envC7 : Env := fun n =>
  if n = 0 then { getChildrenCb := some (.ok (some [1])) } else {}

/-- Witness for `getParent_backreference_stable`: enumerate node 0's child 1,
recursively invalidate node 0 and re-render it, then look the parent up. -/
theorem getParent_backreference_stable_witness :
    childrenOf {} 0 = none ∧
    (envC7 0).getChildrenCb = some (.ok (some [1])) ∧
    1 ∈ [1] ∧
    (dataChangedF 3 (some [0]) true ((getChildren envC7 (some 0) {}).2)).isSome = true ∧
    (getParent ((getTreeItem envC7 0 (dataChangedRun 3 (some [0]) true
        ((getChildren envC7 (some 0) {}).2))).2) 1).1 = some 0 :=
  ⟨by rfl, by rfl, by simp, by rfl,
    getParent_backreference_stable envC7 0 {} [1] 1 3 (by rfl) (by rfl) (by simp) (by rfl)⟩

/-! ### Claim C6 -/

/-- Claim C6.  After `dataChanged(n, recursive=true)` completes (fuel
suffices), the cached tree item, cached children list and cached decorations
of `n` and of every descendant reachable through cached children lists (as
of the pre-call state) are cleared; consequently a subsequent `getTreeItem`
on any such node invokes that node's renderer again, and a subsequent
`getChildren` invokes its children producer again (when the node has one). -/
theorem dataChanged_recursive_clears (env : Env) (fuel n : Nat) (s : Sys)
    (h : (dataChangedF fuel (some [n]) true s).isSome = true) (d : Nat) (hr : Reach s n d) :
    FieldsCleared (dataChangedRun fuel (some [n]) true s) d ∧
    (getTreeItem env d (dataChangedRun fuel (some [n]) true s)).2.treeItemCalls d
      = (dataChangedRun fuel (some [n]) true s).treeItemCalls d + 1 ∧
    ((env d).getChildrenCb.isSome = true →
      (getChildren env (some d) (dataChangedRun fuel (some [n]) true s)).2.childrenCalls d
        = (dataChangedRun fuel (some [n]) true s).childrenCalls d + 1) := by
  rcases dataChanged_single fuel n s h with ⟨s2, hs2, hrun⟩
  have hseq := seq_all fuel [n] s s2 s hs2 (subOf_self s) (cohOf_self s)
  have hcl : FieldsCleared s2 d := hseq.2.2.2 n (List.mem_singleton.mpr rfl) d hr
  have hclrun : FieldsCleared (dataChangedRun fuel (some [n]) true s) d := by
    rw [hrun]
    unfold FieldsCleared at hcl ⊢
    simpa using hcl
  exact ⟨hclrun, getTreeItem_bump hclrun.1, fun hcb => getChildren_bump hclrun.2.1 hcb⟩

/-- Environment for the claim C6 witness: a two-level tree rooted at node 0
with children 1 and 2. -/
def envC6 : Env := fun n =>
  if n = 0 then { getChildrenCb := some (.ok (some [1, 2])) }
  else { getChildrenCb := some (.ok (some [])) }

/-- State for the claim C6 witness: node 0's children are cached. -/
def sC6 : Sys := (getChildren envC6 (some 0) {}).2

/-- Witness for `dataChanged_recursive_clears`: recursively invalidate node 0
after caching its children and check its descendant 1. -/
theorem dataChanged_recursive_clears_witness :
    (dataChangedF 3 (some [0]) true sC6).isSome = true ∧
    Reach sC6 0 1 ∧
    FieldsCleared (dataChangedRun 3 (some [0]) true sC6) 1 ∧
    ((getTreeItem envC6 1 (dataChangedRun 3 (some [0]) true sC6)).2.treeItemCalls 1
        = (dataChangedRun 3 (some [0]) true sC6).treeItemCalls 1 + 1) ∧
    ((getChildren envC6 (some 1)
          (dataChangedRun 3 (some [0]) true sC6)).2.childrenCalls 1
        = (dataChangedRun 3 (some [0]) true sC6).childrenCalls 1 + 1) :=
  ⟨by rfl, Reach.step [1, 2] (by rfl) (by simp) (Reach.refl 1),
    (dataChanged_recursive_clears envC6 3 0 sC6 (by rfl) 1
        (Reach.step [1, 2] (by rfl) (by simp) (Reach.refl 1))).1,
    (dataChanged_recursive_clears envC6 3 0 sC6 (by rfl) 1
        (Reach.step [1, 2] (by rfl) (by simp) (Reach.refl 1))).2.1,
    (dataChanged_recursive_clears envC6 3 0 sC6 (by rfl) 1
        (Reach.step [1, 2] (by rfl) (by simp) (Reach.refl 1))).2.2 (by rfl)⟩

/-! ### Claim C9 -/

/-- Claim C9, counterexample.  The claim states that a node carries a
metadata record *iff* the adapter has rendered (`getTreeItem`) or enumerated
(`getChildren`) it since the last invalidation, and that in particular
`getParent` does not create a record.  But `getMetadata` is get-*or-create*
(`objectGetOrSetProperty`), so `getParent` on a fresh node installs the
`__tree` record: after a single `getParent(0)` on a fresh tree, node 0
carries metadata while both its callback counters are still zero — it was
never rendered nor enumerated, refuting the claimed equivalence. -/
theorem metadata_created_by_getParent_counterexample :
    (getParent { data := [0] } 0).1 = none ∧
    metadataExists ((getParent { data := [0] } 0).2) 0 = true ∧
    ((getParent { data := [0] } 0).2).treeItemCalls 0 = 0 ∧
    ((getParent { data := [0] } 0).2).childrenCalls 0 = 0 := by
  refine ⟨rfl, rfl, rfl, rfl⟩

/-- Claim C9, amended.  Metadata records are created by *any* operation that
touches a node's metadata, not only by rendering/enumeration: `getParent`
and `getResourceUri` install an (empty) record on first access without
invoking any callback.  Records are never removed: a recursive
`dataChanged` invalidation retains every existing record, merely clearing
the cached fields, and preserves the parent back-reference. -/
theorem metadata_lifecycle_amended :
    (∀ s n, metadataExists ((getParent s n).2) n = true ∧
      ((getParent s n).2).treeItemCalls n = s.treeItemCalls n ∧
      ((getParent s n).2).childrenCalls n = s.childrenCalls n) ∧
    (∀ s n, metadataExists ((getResourceUri s n).2) n = true) ∧
    (∀ fuel n s m, (dataChangedF fuel (some [n]) true s).isSome = true →
      metadataExists s m = true →
      metadataExists (dataChangedRun fuel (some [n]) true s) m = true) ∧
    (∀ fuel n s m, (dataChangedF fuel (some [n]) true s).isSome = true →
      parentOf (dataChangedRun fuel (some [n]) true s) m = parentOf s m) := by
  refine ⟨fun s n => ?_, fun s n => ?_, fun fuel n s m h hex => ?_, fun fuel n s m h => ?_⟩
  · refine ⟨?_, ?_, ?_⟩
    · show metadataExists (getMeta s n).2 n = true
      simp
    · show (getMeta s n).2.treeItemCalls n = s.treeItemCalls n
      simp
    · show (getMeta s n).2.childrenCalls n = s.childrenCalls n
      simp
  · show metadataExists (getMeta s n).2 n = true
    simp
  · rcases dataChanged_single fuel n s h with ⟨s2, hs2, hrun⟩
    have hmono := (seq_all fuel [n] s s2 s hs2 (subOf_self s) (cohOf_self s)).2.2.1
    rw [hrun]
    show metadataExists (fireChange s2) m = true
    rw [metadataExists_fireChange]
    exact hmono.2.2 m hex
  · rcases dataChanged_single fuel n s h with ⟨s2, hs2, hrun⟩
    have hmono := (seq_all fuel [n] s s2 s hs2 (subOf_self s) (cohOf_self s)).2.2.1
    rw [hrun, parentOf_fireChange]
    exact hmono.2.1 m

/-- A state carrying a metadata record for node 0, for the claim C9 witness. -/
def sC9 : Sys := (getParent { data := [0] } 0).2

/-- Witness for `metadata_lifecycle_amended` at concrete inputs (the
invalidation conjunct applied to `sC9`, which carries a record for node 0). -/
theorem metadata_lifecycle_amended_witness :
    (metadataExists ((getParent {} 0).2) 0 = true ∧
      ((getParent {} 0).2).treeItemCalls 0 = Sys.treeItemCalls {} 0 ∧
      ((getParent {} 0).2).childrenCalls 0 = Sys.childrenCalls {} 0) ∧
    metadataExists ((getResourceUri {} 1).2) 1 = true ∧
    metadataExists (dataChangedRun 2 (some [0]) true sC9) 0 = true ∧
    parentOf (dataChangedRun 2 (some [0]) true sC9) 0 = parentOf sC9 0 :=
  ⟨metadata_lifecycle_amended.1 {} 0, metadata_lifecycle_amended.2.1 {} 1,
    metadata_lifecycle_amended.2.2.1 2 0 sC9 0 (by rfl) (by rfl),
    metadata_lifecycle_amended.2.2.2 2 0 sC9 0 (by rfl)⟩

/-! ### Claim C2 -/

/-- State for claim C2: node 0 was never rendered (no cached tree item) but
has cached children and decorations; node 5 was rendered without a
`resourceUri`. -/
def sC2 : Sys :=
  { meta := fun i =>
      if i = 0 then some { children := some [1], decorations := some [("badge", "x")] }
      else if i = 5 then
        some { treeItem := some { label := "five" }, decorations := some [("badge", "y")] }
      else none }

/-- Claim C2, evaluated at its failing inputs.  The claim (and the
assertion's own message) say `updateDecorations` must fail on a node without
a cached rendered item, and on a node whose cached item has no resource
locator.  In the code both checks read `fail.assertNotNull(!metadata.treeItem)`
and `fail.assertNotNull(!metadata.treeItem?.resourceUri)` — the argument is a
*boolean*, which is never `null`/`undefined`, so the assertion can never
fire.  On the never-rendered node 0 the call succeeds, clears only the
cached decorations (tree item and children untouched) and fires the
decoration channel with `undefined`; likewise on node 5 (rendered, no
locator). -/
theorem updateDecorations_assert_never_fires :
    treeItemOf sC2 0 = none ∧
    (updateDecorationsF 1 0 false sC2).map Prod.fst = some (.ok ()) ∧
    (updateDecorationsF 1 0 false sC2).map (fun r => r.2.decorationFires) = some [none] ∧
    (updateDecorationsF 1 0 false sC2).map (fun r => decorationsOf r.2 0) = some none ∧
    (updateDecorationsF 1 0 false sC2).map (fun r => childrenOf r.2 0) = some (some [1]) ∧
    (updateDecorationsF 1 0 false sC2).map (fun r => treeItemOf r.2 0) = some none ∧
    (updateDecorationsF 1 0 false sC2).map (fun r => r.2.reportedErrors) = some [] ∧
    treeItemOf sC2 5 = some { label := "five" } ∧
    (treeItemOf sC2 5).bind (fun it => it.resourceUri) = none ∧
    (updateDecorationsF 1 5 false sC2).map Prod.fst = some (.ok ()) ∧
    (updateDecorationsF 1 5 false sC2).map (fun r => r.2.decorationFires) = some [none] ∧
    (updateDecorationsF 1 5 false sC2).map (fun r => decorationsOf r.2 5) = some none := by
  refine ⟨rfl, rfl, rfl, rfl, rfl, rfl, rfl, rfl, rfl, rfl, rfl, rfl⟩

/-! ### Claim C3 -/

theorem findFirstNodeF_frame {fuel : Nat} {cond : Sys → Nat → Bool} {work : List Nat}
    {s : Sys} {ro : Option Nat} {s1 : Sys}
    (h : findFirstNodeF fuel cond work s = some (ro, s1)) :
    s1.dropCalls = s.dropCalls ∧ s1.debugLogs = s.debugLogs ∧
    s1.reportedErrors = s.reportedErrors := by
  induction fuel generalizing work s with
  | zero =>
    rw [findFirstNodeF_zero] at h
    cases h
  | succ fuel ih =>
    cases work with
    | nil =>
      rw [findFirstNodeF_nil] at h
      injection h with h1
      injection h1 with h1 h2
      subst h2
      exact ⟨rfl, rfl, rfl⟩
    | cons n rest =>
      rw [findFirstNodeF_cons] at h
      split at h
      · injection h with h1
        injection h1 with h1 h2
        subst h2
        simp
      · rcases ih h with ⟨h1, h2, h3⟩
        rw [h1, h2, h3]
        simp

/-- The locator cached for node 0 in the claim C3 scenario (`s://a/p`). -/
def uC3 : Uri := { scheme := "s", authority := "a", path := "/p" }

/-- Environment for claim C3: every node accepts drops. -/
def envC3 : Env := fun _ => { hasOnDrop := true }

/-- State for claim C3: the tree caches only node 0, rendered with locator
`s://a/p`. -/
def sC3 : Sys :=
  { data := [0],
    meta := fun i =>
      if i = 0 then some { treeItem := some { resourceUri := some uC3 } } else none }

/-- Claim C3, counterexample.  The claim says a drop whose payload matches no
cached node completes "with only a debug log: ... no user-facing error is
reported".  Concretely: the tree caches node 0 with locator `s://a/p`, the
payload names `zz://gone`; `handleDrop` invokes no drop handler and resolves
without error, but it writes *no* debug line and *does* report a user-facing
error ("Can not find dragged node with uri", surfaced by `handleError` as an
error message box), refuting the claim as stated. -/
theorem handleDrop_missing_node_counterexample :
    (handleDropF envC3 5 (some 0) (some "zz://gone") sC3).map Prod.fst = some (.ok ()) ∧
    (handleDropF envC3 5 (some 0) (some "zz://gone") sC3).map (fun r => r.2.dropCalls)
      = some [] ∧
    (handleDropF envC3 5 (some 0) (some "zz://gone") sC3).map (fun r => r.2.debugLogs)
      = some [] ∧
    (handleDropF envC3 5 (some 0) (some "zz://gone") sC3).map (fun r => r.2.reportedErrors)
      = some ["Can not find dragged node with uri"] := by
  refine ⟨rfl, rfl, rfl, rfl⟩

/-- Claim C3, amended.  When the transfer payload matches no node currently
cached in the tree, `handleDrop` invokes no drop handler and nothing
propagates to the host (the wrapped call resolves normally), but the failure
is *not* silent: no debug line is written for this case and the thrown
assertion "Can not find dragged node with uri" is reported through the
shared error handler, i.e. logged and shown to the user as an error
message. -/
theorem handleDrop_missing_node_amended (env : Env) (fuel : Nat) (p : String)
    (target : Option Nat) (s : Sys)
    (h : (findFirstNodeF fuel (uriMatches p) s.data s).map Prod.fst = some none) :
    (handleDropF env fuel target (some p) s).map Prod.fst = some (.ok ()) ∧
    (handleDropF env fuel target (some p) s).map (fun r => r.2.dropCalls)
      = some s.dropCalls ∧
    (handleDropF env fuel target (some p) s).map (fun r => r.2.debugLogs)
      = some s.debugLogs ∧
    (handleDropF env fuel target (some p) s).map (fun r => r.2.reportedErrors)
      = some (s.reportedErrors ++ ["Can not find dragged node with uri"]) := by
  unfold handleDropF handleDropBody
  rcases hf : findFirstNodeF fuel (uriMatches p) s.data s with _ | ⟨ro, s1⟩
  · rw [hf] at h
    cases h
  · rw [hf] at h
    have h1 : ro = none := by simpa using h
    subst h1
    rcases findFirstNodeF_frame hf with ⟨hd, hl, hr⟩
    dsimp only
    rw [hf]
    dsimp only
    simp [hd, hl, hr]

/-- Witness for `handleDrop_missing_node_amended` at the concrete inputs of
the counterexample state (payload `zz://other`, target node 0). -/
theorem handleDrop_missing_node_amended_witness :
    (findFirstNodeF 4 (uriMatches "zz://other") sC3.data sC3).map Prod.fst = some none ∧
    ((handleDropF envC3 4 (some 0) (some "zz://other") sC3).map Prod.fst = some (.ok ()) ∧
      (handleDropF envC3 4 (some 0) (some "zz://other") sC3).map (fun r => r.2.dropCalls)
        = some sC3.dropCalls ∧
      (handleDropF envC3 4 (some 0) (some "zz://other") sC3).map (fun r => r.2.debugLogs)
        = some sC3.debugLogs ∧
      (handleDropF envC3 4 (some 0) (some "zz://other") sC3).map
          (fun r => r.2.reportedErrors)
        = some (sC3.reportedErrors ++ ["Can not find dragged node with uri"])) :=
  ⟨by rfl, handleDrop_missing_node_amended envC3 4 "zz://other" (some 0) sC3 (by rfl)⟩

/-! ### Claim C8 -/

/-- The parent locator of claim C8: the string `scheme://base` denotes
scheme `scheme`, authority `base` and *empty* path. -/
def uBase : Uri := { scheme := "scheme", authority := "base" }

/-- Environment for claim C8: node 1 renders a bare item and declares path
segments `["x", "y"]`; node 0 renders an item with locator `scheme://base`. -/
def envC8 : Env := fun n =>
  if n = 1 then { getTreeItemCb := .ok {}, pathSegments := ["x", "y"] }
  else { getTreeItemCb := .ok { resourceUri := some uBase } }

/-- State for claim C8, first half: node 1's recorded parent is node 0,
which has already been rendered with locator `scheme://base`. -/
def sC8 : Sys :=
  { meta := fun i =>
      if i = 0 then some { treeItem := some { resourceUri := some uBase } }
      else if i = 1 then some { parent := some 0 } else none }

/-- State for claim C8, second half: node 1's recorded parent is node 0,
which has not been rendered yet. -/
def sC8b : Sys :=
  { meta := fun i => if i = 1 then some { parent := some 0 } else none }

/-- Claim C8, evaluated at its failing input.  The claim says that with
parent locator `scheme://base` and segments `["x","y"]` the node's locator
becomes `scheme://base/x/y`, i.e. components
`⟨scheme, base, /x/y⟩`.  `URI.appendPath` takes the empty-path branch and
sets the path to `join("x","y") = "x/y"` — with *no* leading slash — so the
derived locator is `⟨scheme, base, x/y⟩`, not `scheme://base/x/y` (the real
host's `Uri.with` even rejects an authority combined with a relative path,
so there the call would throw).  The second half of the claim holds: before
the parent has been rendered, the `assertNotNull(parentUri)` check fails and
the error is reported and rethrown. -/
theorem appendPath_authority_base_behavior :
    URI.appendPath uBase ["x", "y"]
      = { scheme := "scheme", authority := "base", path := "x/y" } ∧
    (getTreeItem envC8 1 sC8).1
      = .ok { resourceUri := some { scheme := "scheme", authority := "base", path := "x/y" } } ∧
    ({ scheme := "scheme", authority := "base", path := "x/y" } : Uri)
      ≠ { scheme := "scheme", authority := "base", path := "/x/y" } ∧
    (getTreeItem envC8 1 sC8b).1
      = .error "Node only defines path segments but parent node does not provide resourceUri" ∧
    (getTreeItem envC8 1 sC8b).2.reportedErrors
      = ["getTreeItem failed: " ++
          "Node only defines path segments but parent node does not provide resourceUri"] := by
  refine ⟨rfl, rfl, by decide, rfl, rfl⟩
